import Mathlib

/-!
Verification development for the informed-consent-ai repository.

The Python sources under `src/` are embedded shallowly:

* Python/JSON values (as produced by `json.loads` and handled by the
  analyzer/ingestion code) become the inductive type `PyVal`; Python
  runtime exceptions become `PyErr`, and fallible Python code is modelled
  in the `Except PyErr` monad.
* External capability providers (the Ollama reasoning model, pdfplumber,
  Tesseract, bcrypt) are treated as parameters: a capability call is an
  `Except String String` outcome (or a `String → String` hash function),
  exactly as the surrounding code observes them.
* The SQLite/SQLAlchemy store becomes an explicit `Store` value threaded
  through the ingestion functions; a commit appends the pending rows, a
  rollback returns the original store.  Autoincrement ids are modelled as
  `length + 1`; timestamp columns are omitted (no claim mentions them).
-/

/-- Values of the Python/JSON data domain handled by `ai_analyzer.py` and
`ingest_pdf.py`: the possible results of `json.loads` (`None`, booleans,
numbers, strings, lists, dicts).  Non-integer JSON numbers are carried as
their literal text, never inspected numerically.  Dicts keep insertion
order, as Python dicts do. -/
inductive PyVal where
  | none
  | bool (b : Bool)
  | int (n : Int)
  | float (lit : String)
  | str (s : String)
  | list (xs : List PyVal)
  | dict (kvs : List (String × PyVal))
  deriving Inhabited

/-- Python runtime exceptions raised by the embedded code paths. -/
inductive PyErr where
  | keyError (k : String)
  | typeError
  | attributeError
  | indexError
  | jsonDecodeError
  deriving Repr, DecidableEq, Inhabited

mutual
/-- Python `==` on the embedded values (used for list membership). -/
def pyValBEq : PyVal → PyVal → Bool
  | .none, .none => true
  | .bool a, .bool b => a == b
  | .int a, .int b => a == b
  | .float a, .float b => a == b
  | .str a, .str b => a == b
  | .list xs, .list ys => pyValBEqList xs ys
  | .dict xs, .dict ys => pyValBEqKvs xs ys
  | _, _ => false

/-- `pyValBEq` on lists, elementwise. -/
def pyValBEqList : List PyVal → List PyVal → Bool
  | [], [] => true
  | x :: xs, y :: ys => pyValBEq x y && pyValBEqList xs ys
  | _, _ => false

/-- `pyValBEq` on dict entry lists, entrywise. -/
def pyValBEqKvs : List (String × PyVal) → List (String × PyVal) → Bool
  | [], [] => true
  | (k1, v1) :: xs, (k2, v2) :: ys => k1 == k2 && pyValBEq v1 v2 && pyValBEqKvs xs ys
  | _, _ => false
end

instance : BEq PyVal := ⟨pyValBEq⟩

/-- Python `x is None`. -/
def isNoneVal : PyVal → Bool
  | .none => true
  | _ => false

/-- Lookup in a Python dict (first, and only, binding of the key). -/
def dictFind? : List (String × PyVal) → String → Option PyVal
  | [], _ => Option.none
  | (k', v) :: rest, k => if k' = k then some v else dictFind? rest k

/-- Python dict assignment `d[k] = v`: update in place if the key is
present (keeping its position), otherwise append at the end. -/
def dictSet : List (String × PyVal) → String → PyVal → List (String × PyVal)
  | [], k, v => [(k, v)]
  | (k', v') :: rest, k, v =>
      if k' = k then (k, v) :: rest else (k', v') :: dictSet rest k v

/-- Substring test on character lists (Python `sub in s` for strings). -/
def listContainsSub (cs sub : List Char) : Bool :=
  match cs with
  | [] => sub.isEmpty
  | _ :: rest => sub.isPrefixOf cs || listContainsSub rest sub

/-- Python membership `key in x` for a string key: key lookup on dicts,
element test on lists, substring test on strings, `TypeError` otherwise. -/
def pyContains (x : PyVal) (key : String) : Except PyErr Bool :=
  match x with
  | .dict kvs => .ok (dictFind? kvs key).isSome
  | .list xs => .ok (xs.contains (.str key))
  | .str s => .ok (listContainsSub s.toList key.toList)
  | _ => .error .typeError

/-- Python subscription `x[key]` for a string key: dict lookup
(`KeyError` when absent), `TypeError` on every other type. -/
def pyGetItem (x : PyVal) (key : String) : Except PyErr PyVal :=
  match x with
  | .dict kvs =>
      match dictFind? kvs key with
      | some v => .ok v
      | Option.none => .error (.keyError key)
  | _ => .error .typeError

/-- Python subscript assignment `x[key] = v`: only dicts support it. -/
def pySetItem (x : PyVal) (key : String) (v : PyVal) : Except PyErr PyVal :=
  match x with
  | .dict kvs => .ok (.dict (dictSet kvs key v))
  | _ => .error .typeError

/-- Python `x.get(key, dflt)`.  In the embedded code paths this is only
reached once `x` is known to be a dict (an earlier `x[...]` subscription
succeeded), so the non-dict case is irrelevant and returns the default. -/
def pyDictGetD (x : PyVal) (key : String) (dflt : PyVal) : PyVal :=
  match x with
  | .dict kvs => (dictFind? kvs key).getD dflt
  | _ => dflt

/-- Python truthiness of the embedded values. -/
def pyTruthy : PyVal → Bool
  | .none => false
  | .bool b => b
  | .int n => n ≠ 0
  | .float lit => !(lit = "0" || lit = "0.0" || lit = "-0.0")
  | .str s => s ≠ ""
  | .list xs => !xs.isEmpty
  | .dict kvs => !kvs.isEmpty

/-- ASCII lower-casing of one character (the embedded strings are ASCII). -/
def lowerChar (c : Char) : Char :=
  if 'A' ≤ c ∧ c ≤ 'Z' then Char.ofNat (c.toNat + 32) else c

/-- Python `s.lower()` on a string. -/
def pyLower (s : String) : String :=
  String.mk (s.toList.map lowerChar)

/-- Python `x.lower()`: valid on strings only (`AttributeError` otherwise). -/
def pyLowerStr (x : PyVal) : Except PyErr String :=
  match x with
  | .str s => .ok (pyLower s)
  | _ => .error .attributeError

/-- Python whitespace (the characters stripped or split on by `str.strip`
and `str.split`). -/
def isPyWs (c : Char) : Bool :=
  c = ' ' || c = '\t' || c = '\n' || c = '\r' || c = Char.ofNat 11 || c = Char.ofNat 12

/-- Python `s.strip()`. -/
def pyStrip (s : String) : String :=
  String.mk (((s.toList.dropWhile isPyWs).reverse.dropWhile isPyWs).reverse)

/-- Helper for `pySplitWs`: splits on whitespace runs, accumulating the
current (reversed) token. -/
def pySplitWsAux : List Char → List Char → List String
  | [], acc => if acc.isEmpty then [] else [String.mk acc.reverse]
  | c :: cs, acc =>
      if isPyWs c then
        if acc.isEmpty then pySplitWsAux cs []
        else String.mk acc.reverse :: pySplitWsAux cs []
      else pySplitWsAux cs (c :: acc)

/-- Python `s.split()` with no argument: split on whitespace runs,
discarding empty pieces. -/
def pySplitWs (s : String) : List String :=
  pySplitWsAux s.toList []

/-- Python `s.endswith(suffix)`. -/
def pyEndsWith (s suffix : String) : Bool :=
  suffix.toList.isSuffixOf s.toList

/-- `os.path.basename` for POSIX paths: the part after the last slash. -/
def pyBasename (p : String) : String :=
  String.mk ((p.toList.reverse.takeWhile (· ≠ '/')).reverse)

/-- The characters `{` and `}` (kept as named constants so that the raw
text of the development stays brace-free). -/
def lbrace : Char := Char.ofNat 123

/-- See `lbrace`. -/
def rbrace : Char := Char.ofNat 125

mutual
/-- Python `repr` of the embedded values, as used by `str` on containers. -/
def pyRepr : PyVal → String
  | .none => "None"
  | .bool b => if b then "True" else "False"
  | .int n => toString n
  | .float lit => lit
  | .str s => "'" ++ s ++ "'"
  | .list xs => "[" ++ String.intercalate ", " (pyReprList xs) ++ "]"
  | .dict kvs =>
      String.singleton lbrace ++ String.intercalate ", " (pyReprKvs kvs)
        ++ String.singleton rbrace

/-- `pyRepr` mapped over list elements. -/
def pyReprList : List PyVal → List String
  | [] => []
  | x :: xs => pyRepr x :: pyReprList xs

/-- `pyRepr` mapped over dict entries. -/
def pyReprKvs : List (String × PyVal) → List String
  | [] => []
  | (k, v) :: kvs => ("'" ++ k ++ "': " ++ pyRepr v) :: pyReprKvs kvs
end

/-- Python `str(x)` for the embedded values. -/
def pyStr : PyVal → String
  | .none => "None"
  | .bool b => if b then "True" else "False"
  | .int n => toString n
  | .float lit => lit
  | .str s => s
  | .list xs => pyRepr (.list xs)
  | .dict kvs => pyRepr (.dict kvs)

/-- JSON string escaping as performed by `json.dumps` (common escapes; the
embedded claims never inspect the serialized text). -/
def jsonEscapeChar (c : Char) : String :=
  if c = '"' then "\\\""
  else if c = '\\' then "\\\\"
  else if c = '\n' then "\\n"
  else if c = '\t' then "\\t"
  else if c = '\r' then "\\r"
  else String.singleton c

mutual
/-- Python `json.dumps` with its default separators. -/
def pyJsonDumps : PyVal → String
  | .none => "null"
  | .bool b => if b then "true" else "false"
  | .int n => toString n
  | .float lit => lit
  | .str s => "\"" ++ String.join (s.toList.map jsonEscapeChar) ++ "\""
  | .list xs => "[" ++ String.intercalate ", " (pyJsonDumpsList xs) ++ "]"
  | .dict kvs =>
      String.singleton lbrace ++ String.intercalate ", " (pyJsonDumpsKvs kvs)
        ++ String.singleton rbrace

/-- `pyJsonDumps` mapped over list elements. -/
def pyJsonDumpsList : List PyVal → List String
  | [] => []
  | x :: xs => pyJsonDumps x :: pyJsonDumpsList xs

/-- `pyJsonDumps` mapped over dict entries. -/
def pyJsonDumpsKvs : List (String × PyVal) → List String
  | [] => []
  | (k, v) :: kvs =>
      ("\"" ++ String.join (k.toList.map jsonEscapeChar) ++ "\": " ++ pyJsonDumps v)
        :: pyJsonDumpsKvs kvs
end

/-- Python `sep.join(x)`: joins a list of strings (`TypeError` when some
element is not a string), iterates characters of a string, iterates the
keys of a dict, and raises `TypeError` on every other type. -/
def pyJoinVal (sep : String) (x : PyVal) : Except PyErr String :=
  match x with
  | .str s => .ok (String.intercalate sep (s.toList.map String.singleton))
  | .list xs => do
      let parts ← xs.mapM (fun v =>
        match v with
        | .str s => Except.ok s
        | _ => Except.error PyErr.typeError)
      .ok (String.intercalate sep parts)
  | .dict kvs => .ok (String.intercalate sep (kvs.map Prod.fst))
  | _ => .error .typeError

example : pyContains (.dict [("a", .int 1)]) "a" = .ok true := rfl
example : pyContains (.str "xay") "a" = .ok true := rfl
example : pyContains (.int 3) "a" = .error .typeError := rfl
example : pySplitWs "  Maria  Garcia " = ["Maria", "Garcia"] := rfl
example : pyLower "Maria" = "maria" := rfl
example : pyStrip "  ab " = "ab" := rfl
example : pyJoinVal " " (.list [.str "a", .int 1]) = .error .typeError := rfl
example : pyJsonDumps (.list [.int 1, .str "x"]) = "[1, \"x\"]" := rfl
example : pyEndsWith "a.PDF" ".pdf" = false := rfl
example : pyBasename "dir/sub/f.pdf" = "f.pdf" := rfl

/-! ## JSON parsing (`json.loads`) and the regex JSON extraction

`analyze_consent_form` extracts the first brace-delimited span of the
response with the greedy pattern match `re.search(r'\{.*\}', text,
re.DOTALL)` and parses it with `json.loads`.  The regex semantics: a match
exists iff some `{` occurs before some `}`; the match then runs from the
first `{` to the last `}`.  `json.loads` is modelled by a fuel-indexed
recursive-descent parser over the JSON grammar. -/

/-- Keep the prefix of `cs` up to and including the last `}`; `none` when
`cs` has no `}`. -/
def truncAtLastRbrace? : List Char → Option (List Char)
  | [] => Option.none
  | c :: rest =>
      match truncAtLastRbrace? rest with
      | some kept => some (c :: kept)
      | Option.none => if c = rbrace then some [c] else Option.none

/-- The greedy match of `\{.*\}` (DOTALL) on a character list: from the
first `{` that has a `}` somewhere after it, up to the last `}`. -/
def jsonMatchL : List Char → Option (List Char)
  | [] => Option.none
  | c :: rest =>
      if c = lbrace then (truncAtLastRbrace? rest).map (lbrace :: ·)
      else jsonMatchL rest

/-- `re.search(r'\{.*\}', s, re.DOTALL)`, returning the matched span. -/
def jsonMatch? (s : String) : Option String :=
  (jsonMatchL s.toList).map String.mk

/-- Whitespace characters of the JSON grammar. -/
def isJsonWs (c : Char) : Bool :=
  c = ' ' || c = '\t' || c = '\n' || c = '\r'

/-- Drop leading JSON whitespace. -/
def skipWs (cs : List Char) : List Char := cs.dropWhile isJsonWs

/-- Hex digit value. -/
def hexVal? (c : Char) : Option Nat :=
  if '0' ≤ c ∧ c ≤ '9' then some (c.toNat - 48)
  else if 'a' ≤ c ∧ c ≤ 'f' then some (c.toNat - 87)
  else if 'A' ≤ c ∧ c ≤ 'F' then some (c.toNat - 55)
  else Option.none

/-- Decode one escape sequence after a backslash; returns the decoded
character and the remaining input. -/
def decodeEscape : List Char → Option (Char × List Char)
  | [] => Option.none
  | e :: rest =>
      if e = '"' then some ('"', rest)
      else if e = '\\' then some ('\\', rest)
      else if e = '/' then some ('/', rest)
      else if e = 'b' then some (Char.ofNat 8, rest)
      else if e = 'f' then some (Char.ofNat 12, rest)
      else if e = 'n' then some ('\n', rest)
      else if e = 'r' then some ('\r', rest)
      else if e = 't' then some ('\t', rest)
      else if e = 'u' then
        match rest with
        | h1 :: h2 :: h3 :: h4 :: rest' =>
            match hexVal? h1, hexVal? h2, hexVal? h3, hexVal? h4 with
            | some a, some b, some c, some d =>
                some (Char.ofNat (((a * 16 + b) * 16 + c) * 16 + d), rest')
            | _, _, _, _ => Option.none
        | _ => Option.none
      else Option.none

/-- Parse the body of a JSON string (the opening quote already consumed),
up to and including the closing quote. -/
def parseStrBody : Nat → List Char → Option (String × List Char)
  | 0, _ => Option.none
  | _, [] => Option.none
  | fuel + 1, c :: rest =>
      if c = '"' then some ("", rest)
      else if c = '\\' then
        match decodeEscape rest with
        | some (ch, rest') =>
            match parseStrBody fuel rest' with
            | some (s, r) => some (String.singleton ch ++ s, r)
            | Option.none => Option.none
        | Option.none => Option.none
      else if c.toNat < 32 then Option.none
      else
        match parseStrBody fuel rest with
        | some (s, r) => some (String.singleton c ++ s, r)
        | Option.none => Option.none

/-- Numeric value of a digit list. -/
def digitsVal (ds : List Char) : Nat :=
  ds.foldl (fun a c => a * 10 + (c.toNat - 48)) 0

/-- Parse the optional fraction part of a JSON number: `none` on a dot
with no digits, `some ([], cs)` when no fraction is present. -/
def parseFracPart : List Char → Option (List Char × List Char)
  | '.' :: r =>
      if (r.takeWhile Char.isDigit).isEmpty then Option.none
      else some ('.' :: r.takeWhile Char.isDigit, r.dropWhile Char.isDigit)
  | cs => some ([], cs)

/-- Parse the optional exponent part of a JSON number: `none` on an
exponent marker with no digits, `some ([], cs)` when no exponent is
present. -/
def parseExpPart : List Char → Option (List Char × List Char)
  | [] => some ([], [])
  | c :: r =>
      if c = 'e' || c = 'E' then
        match r with
        | s :: r2' =>
            if s = '+' || s = '-' then
              if (r2'.takeWhile Char.isDigit).isEmpty then Option.none
              else some (c :: s :: r2'.takeWhile Char.isDigit,
                r2'.dropWhile Char.isDigit)
            else
              if (r.takeWhile Char.isDigit).isEmpty then Option.none
              else some (c :: r.takeWhile Char.isDigit, r.dropWhile Char.isDigit)
        | [] => Option.none
      else some ([], c :: r)

/-- The sign-independent part of `parseNumber`: integer digits (no
leading zeros), then optional fraction and exponent. -/
def parseNumberCore (neg : Bool) (cs1 : List Char) : Option (PyVal × List Char) :=
  if (cs1.takeWhile Char.isDigit).isEmpty then Option.none
  else if (cs1.takeWhile Char.isDigit).length > 1
      && (cs1.takeWhile Char.isDigit).headD '0' = '0' then Option.none
  else
    match parseFracPart (cs1.dropWhile Char.isDigit) with
    | Option.none => Option.none
    | some (fp, r2) =>
        match parseExpPart r2 with
        | Option.none => Option.none
        | some (ep, r3) =>
            if fp.isEmpty && ep.isEmpty then
              some (.int (if neg then -(digitsVal (cs1.takeWhile Char.isDigit) : Int)
                else (digitsVal (cs1.takeWhile Char.isDigit) : Int)), r3)
            else
              some (.float (String.mk ((if neg then ['-'] else [])
                ++ cs1.takeWhile Char.isDigit ++ fp ++ ep)), r3)

/-- Parse a JSON number.  Integer literals become `PyVal.int`; literals
with a fraction or exponent become `PyVal.float` carrying their text. -/
def parseNumber (cs : List Char) : Option (PyVal × List Char) :=
  match cs with
  | '-' :: cs1 => parseNumberCore true cs1
  | cs1 => parseNumberCore false cs1

/-- Expect a fixed literal tail (used for `true`/`false`/`null`). -/
def expectLit (lit cs : List Char) : Option (List Char) :=
  if lit.isPrefixOf cs then some (cs.drop lit.length) else Option.none

mutual
/-- Parse one JSON value (recursive descent, fuel-indexed). -/
def parseVal : Nat → List Char → Option (PyVal × List Char)
  | 0, _ => Option.none
  | fuel + 1, cs =>
      match skipWs cs with
      | [] => Option.none
      | c :: rest =>
          if c = lbrace then parseObj fuel rest
          else if c = '[' then parseArr fuel rest
          else if c = '"' then
            match parseStrBody (rest.length + 1) rest with
            | some (s, r) => some (.str s, r)
            | Option.none => Option.none
          else if c = 't' then
            (expectLit ['r', 'u', 'e'] rest).map (fun r => (.bool true, r))
          else if c = 'f' then
            (expectLit ['a', 'l', 's', 'e'] rest).map (fun r => (.bool false, r))
          else if c = 'n' then
            (expectLit ['u', 'l', 'l'] rest).map (fun r => (.none, r))
          else parseNumber (c :: rest)

/-- Parse a JSON object, the opening brace already consumed. -/
def parseObj : Nat → List Char → Option (PyVal × List Char)
  | 0, _ => Option.none
  | fuel + 1, cs =>
      match skipWs cs with
      | [] => Option.none
      | c :: rest =>
          if c = rbrace then some (.dict [], rest)
          else parseMembers fuel cs []

/-- Parse the members of a JSON object (at least one), the input starting
at a key; duplicate keys overwrite as in Python. -/
def parseMembers : Nat → List Char → List (String × PyVal) →
    Option (PyVal × List Char)
  | 0, _, _ => Option.none
  | fuel + 1, cs, acc =>
      match skipWs cs with
      | [] => Option.none
      | c :: rest =>
          if c = '"' then
            match parseStrBody (rest.length + 1) rest with
            | some (k, r1) =>
                match skipWs r1 with
                | ':' :: r2 =>
                    match parseVal fuel r2 with
                    | some (v, r3) =>
                        let acc' := dictSet acc k v
                        match skipWs r3 with
                        | d :: r4 =>
                            if d = ',' then parseMembers fuel r4 acc'
                            else if d = rbrace then some (.dict acc', r4)
                            else Option.none
                        | [] => Option.none
                    | Option.none => Option.none
                | _ => Option.none
            | Option.none => Option.none
          else Option.none

/-- Parse a JSON array, the opening bracket already consumed. -/
def parseArr : Nat → List Char → Option (PyVal × List Char)
  | 0, _ => Option.none
  | fuel + 1, cs =>
      match skipWs cs with
      | [] => Option.none
      | c :: rest =>
          if c = ']' then some (.list [], rest)
          else parseItems fuel cs []

/-- Parse the items of a JSON array (at least one). -/
def parseItems : Nat → List Char → List PyVal → Option (PyVal × List Char)
  | 0, _, _ => Option.none
  | fuel + 1, cs, acc =>
      match parseVal fuel cs with
      | some (v, r1) =>
          match skipWs r1 with
          | d :: r2 =>
              if d = ',' then parseItems fuel r2 (acc ++ [v])
              else if d = ']' then some (.list (acc ++ [v]), r2)
              else Option.none
          | [] => Option.none
      | Option.none => Option.none
end

/-- Python `json.loads`: parse one JSON value and require that only
whitespace follows. -/
def jsonLoads (s : String) : Except PyErr PyVal :=
  match parseVal (2 * s.toList.length + 2) s.toList with
  | some (v, rest) =>
      if (skipWs rest).isEmpty then .ok v else .error .jsonDecodeError
  | Option.none => .error .jsonDecodeError

example : jsonLoads "null" = .ok .none := rfl
example : jsonLoads " -12 " = .ok (.int (-12)) := rfl
example : jsonLoads "1.5e3" = .ok (.float "1.5e3") := rfl
example : jsonLoads "[true, \"a\"]" = .ok (.list [.bool true, .str "a"]) := rfl
example : jsonLoads "\x7b\"a\": [1], \"b\": null\x7d"
    = .ok (.dict [("a", .list [.int 1]), ("b", .none)]) := rfl
example : jsonLoads "\x7b\"a\": 1" = .error .jsonDecodeError := rfl
example : jsonLoads "plain prose" = .error .jsonDecodeError := rfl
example : jsonMatch? "text \x7bignored\x7d more" = some "\x7bignored\x7d" := rfl
example : jsonMatch? "no braces" = Option.none := rfl
example : jsonMatch? "\x7d then \x7b" = Option.none := rfl

/-! ## `ai_analyzer.py`: AIAnalyzer -/

/-- The ordered field/default table of `AIAnalyzer._get_default_analysis`. -/
def default_analysis_fields : List (String × PyVal) :=
  [("patient_name", .str "Unknown"),
   ("patient_email", .str "unknown@example.com"),
   ("patient_dob", .none),
   ("doctor_name", .str "Unknown"),
   ("procedure", .str "Unknown"),
   ("procedure_date", .none),
   ("consented_items", .list []),
   ("declined_items", .list []),
   ("summary", .str "Unable to extract summary from consent form.")]

/-- `AIAnalyzer._get_default_analysis`: the all-defaults record. -/
def _get_default_analysis : PyVal := .dict default_analysis_fields

/-- One iteration of the loop in `AIAnalyzer._validate_analysis`:
`if key not in analysis or analysis[key] is None: analysis[key] = defaults[key]`,
with Python's short-circuit `or` (the subscription only runs when the
membership test was true, and either operation may raise `TypeError` on a
non-dict). -/
def validate_field (analysis : PyVal) (key : String) (dflt : PyVal) :
    Except PyErr PyVal := do
  let isIn ← pyContains analysis key
  if !isIn then pySetItem analysis key dflt
  else do
    let v ← pyGetItem analysis key
    if isNoneVal v then pySetItem analysis key dflt else pure analysis

/-- `AIAnalyzer._validate_analysis`: fill every absent-or-`None` required
field with its default, iterating the default table in order. -/
def _validate_analysis (analysis : PyVal) : Except PyErr PyVal :=
  default_analysis_fields.foldlM (fun a kd => validate_field a kd.1 kd.2) analysis

/-- The JSON-extraction step of `analyze_consent_form`: strip the
response, take the greedy brace-delimited match if there is one, otherwise
keep the whole stripped response. -/
def analyze_target (response : String) : String :=
  let response_text := pyStrip response
  match jsonMatch? response_text with
  | some m => m
  | Option.none => response_text

/-- `AIAnalyzer.analyze_consent_form`, given the outcome of the Ollama
chat call (`Except String String`: an exception or the response content).
Mirrors the `try/except` structure: a capability failure, a JSON decode
failure, or any error inside validation all fall into an `except` handler
returning the default record. -/
def analyze_consent_form (capResult : Except String String) : Except PyErr PyVal :=
  match capResult with
  | .error _ => .ok _get_default_analysis
  | .ok raw =>
      match jsonLoads (analyze_target raw) with
      | .error _ => .ok _get_default_analysis
      | .ok parsed =>
          match _validate_analysis parsed with
          | .ok a => .ok a
          | .error _ => .ok _get_default_analysis

/-- The fallback sentence of `AIAnalyzer.answer_query`. -/
def query_fallback_answer : String :=
  "I apologize, but I'm having trouble processing your query right now. Please try again."

/-- One block of `AIAnalyzer._format_consents_for_context` (fallible: the
`', '.join` calls raise `TypeError` on non-string list elements). -/
def format_one_consent (idx : Nat) (consent : PyVal) : Except PyErr String := do
  let consented ← pyJoinVal ", " (pyDictGetD consent "consented_items" (.list []))
  let declined ← pyJoinVal ", " (pyDictGetD consent "declined_items" (.list []))
  pure ("\nCONSENT FORM #" ++ toString idx ++ ":\n- Patient: "
    ++ pyStr (pyDictGetD consent "patient_name" (.str "Unknown"))
    ++ "\n- Procedure: " ++ pyStr (pyDictGetD consent "procedure" (.str "Unknown"))
    ++ "\n- Doctor: " ++ pyStr (pyDictGetD consent "doctor_name" (.str "Unknown"))
    ++ "\n- Date: " ++ pyStr (pyDictGetD consent "procedure_date" (.str "Unknown"))
    ++ "\n- Consented to: " ++ (if consented = "" then "None listed" else consented)
    ++ "\n- Declined: " ++ (if declined = "" then "None listed" else declined)
    ++ "\n- Summary: " ++ pyStr (pyDictGetD consent "summary" (.str "No summary available"))
    ++ "\n")

/-- `AIAnalyzer._format_consents_for_context`. -/
def _format_consents_for_context (patient_consents : List PyVal) :
    Except PyErr String :=
  if patient_consents.isEmpty then pure "No consent forms found."
  else do
    let parts ← (patient_consents.enumFrom 1).mapM
      (fun p => format_one_consent p.1 p.2)
    pure (String.intercalate "\n" parts)

/-- `AIAnalyzer.answer_query`, given the outcome of the Ollama chat call.
The context formatting runs outside the `try` block, so its `TypeError`
propagates; a capability failure is converted to the fixed fallback
sentence.  The second component records whether the reasoning capability
was invoked. -/
def answer_query (_query : String) (patient_consents : List PyVal)
    (capResult : Except String String) : (Except PyErr String) × Bool :=
  match _format_consents_for_context patient_consents with
  | .error e => (.error e, false)
  | .ok _context =>
      match capResult with
      | .ok response => (.ok (pyStrip response), true)
      | .error _ => (.ok query_fallback_answer, true)

example : _validate_analysis (.dict []) = .ok _get_default_analysis := rfl
example : _validate_analysis (.int 3) = .error .typeError := rfl
example : analyze_consent_form (.error "connection refused")
    = .ok _get_default_analysis := rfl
example : analyze_consent_form (.ok "I think \x7b\"patient_name\": \"Jo\"\x7d works")
    = .ok (.dict (("patient_name", .str "Jo") :: default_analysis_fields.tail)) := by
  rfl

/-! ## `ocr_processor.py`: OCRProcessor -/

/-- `OCRProcessor.extract_text_from_pdf`, with the two extraction
strategies abstracted as their outcomes (`pdfplumber` and Tesseract are
external capability providers).  The second component records whether the
Tesseract strategy was invoked.  In `auto` mode (any engine other than the
two named ones) the code falls back to Tesseract when pdfplumber raises or
returns at most 50 characters of stripped text; with a deterministic
Tesseract outcome, the path where a Tesseract failure inside the `try`
block is caught and Tesseract is retried once more by the handler returns
that same outcome. -/
def extract_text_from_pdf (ocr_engine : String) (fileExists : Bool)
    (plumber tess : Except String String) : (Except String String) × Bool :=
  if !fileExists then (.error "PDF file not found", false)
  else if ocr_engine = "pdfplumber" then (plumber, false)
  else if ocr_engine = "tesseract" then (tess, true)
  else
    match plumber with
    | .ok text =>
        if (pyStrip text).length > 50 then (.ok text, false)
        else (tess, true)
    | .error _ => (tess, true)

/-! ## `database.py`: persisted rows and the store

Timestamp columns are omitted; `bcrypt` is abstracted as a hash function
parameter.  SQLAlchemy column types are kept as the Python values the code
actually assigns (`PyVal` where the code passes analysis values through). -/

/-- A row of the `patients` table.  `default_password` is a persisted
column (`database.py` line 24, commented "For reference only"). -/
structure PatientRow where
  id : Nat
  email : String
  passwordHash : String
  patient_name : PyVal
  defaultPassword : Option String

/-- A row of the `consents` table. -/
structure ConsentRow where
  id : Nat
  patientId : Nat
  filename : String
  fullText : String
  aiAnalysisJson : String
  deriving Repr, DecidableEq

/-- A row of the `entity_index` table. -/
structure EntityIndexRow where
  id : Nat
  consentId : Nat
  patientId : Nat
  patient_name : PyVal
  patient_email : PyVal
  patient_dob : PyVal
  doctor_name : PyVal
  procedure : PyVal
  procedure_date : PyVal
  consented_items : String
  declined_items : String
  summary : PyVal
  search_terms : String

/-- The persistent state: the three tables the ingestion pipeline writes. -/
structure Store where
  patients : List PatientRow
  consents : List ConsentRow
  entityIndexes : List EntityIndexRow

/-- The empty database. -/
def emptyStore : Store := ⟨[], [], []⟩

/-! ## `ingest_pdf.py`: PDFIngestionService -/

/-- The result dict returned by `_store_consent_data` (the `success` key,
always `True`, is omitted). -/
structure StoreResult where
  patientId : Nat
  patientName : PyVal
  patientEmail : String
  defaultPassword : Option String
  consentId : Nat
  filename : String

/-- Lines 101-102 of `ingest_pdf.py`:
`patient_name.split()[0].lower()` followed by the fixed suffix, i.e. the
default credential derived for a newly created patient.  `split()` on a
non-string raises `AttributeError`; indexing `[0]` on the empty token list
raises `IndexError`. -/
def derive_default_password (patient_name : PyVal) : Except PyErr String :=
  match patient_name with
  | .str s =>
      match pySplitWs s with
      | [] => .error .indexError
      | t :: _ => .ok (pyLower t ++ "123!")
  | _ => .error .attributeError

/-- Append a string to the term list if the value is truthy (helper for
`_generate_search_terms`). -/
def appendLowerIfTruthy (terms : List String) (v : PyVal) :
    Except PyErr (List String) :=
  if pyTruthy v then do
    let low ← pyLowerStr v
    pure (terms ++ [low])
  else pure terms

/-- First-occurrence deduplication.  `_generate_search_terms` joins
`set(terms)`, whose iteration order Python leaves unspecified; the
embedding fixes the deterministic first-occurrence order as the
representative (no claim inspects the joined text). -/
def dedupFirst (xs : List String) : List String :=
  xs.foldl (fun acc x => if acc.contains x then acc else acc ++ [x]) []

/-- `PDFIngestionService._generate_search_terms`. -/
def _generate_search_terms (analysis : PyVal) : Except PyErr String := do
  let nameV := pyDictGetD analysis "patient_name" .none
  let terms ←
    if pyTruthy nameV then do
      let low ← pyLowerStr nameV
      pure ([low] ++ pySplitWs low)
    else pure ([] : List String)
  let terms ← appendLowerIfTruthy terms (pyDictGetD analysis "patient_email" .none)
  let terms ← appendLowerIfTruthy terms (pyDictGetD analysis "procedure" .none)
  let terms ← appendLowerIfTruthy terms (pyDictGetD analysis "doctor_name" .none)
  pure (String.intercalate " " (dedupFirst terms))

/-- The create-or-get patient step of `_store_consent_data` (lines
89-111 of `ingest_pdf.py`): look the normalized email up; reuse the found
row (and its stored `default_password` column), or derive the default
credential, hash it (`hashpw` abstracts `bcrypt.hashpw` inside
`Patient.set_password`), and stage a new patient row whose
`default_password` column holds the plaintext. -/
def resolve_patient_rows (hashpw : String → String) (store : Store)
    (patient_email : String) (patient_name : PyVal) :
    Except PyErr (List PatientRow × PatientRow × Option String) :=
  match store.patients.find? (fun p => p.email = patient_email) with
  | some patient => pure (store.patients, patient, patient.defaultPassword)
  | Option.none => do
      let pw ← derive_default_password patient_name
      let patient : PatientRow :=
        { id := store.patients.length + 1
          email := patient_email
          passwordHash := hashpw pw
          patient_name := patient_name
          defaultPassword := some pw }
      pure (store.patients ++ [patient], patient, some pw)

/-- The transaction body of `PDFIngestionService._store_consent_data`:
normalize the email, create or get the patient, create the consent row,
build the entity-index row, and return the committed store with the
result dict; any raised exception aborts the whole transaction. -/
def store_consent_attempt (hashpw : String → String) (store : Store)
    (pdf_path ocr_text : String) (analysis : PyVal) :
    Except PyErr (Store × StoreResult) := do
    let filename := pyBasename pdf_path
    let emailVal ← pyGetItem analysis "patient_email"
    let patient_email ← pyLowerStr emailVal
    let patient_name ← pyGetItem analysis "patient_name"
    let (patients', patient, default_password) ←
      resolve_patient_rows hashpw store patient_email patient_name
    let consent : ConsentRow :=
      { id := store.consents.length + 1
        patientId := patient.id
        filename := filename
        fullText := ocr_text
        aiAnalysisJson := pyJsonDumps analysis }
    let nameVal ← pyGetItem analysis "patient_name"
    let emailVal2 ← pyGetItem analysis "patient_email"
    let search_terms ← _generate_search_terms analysis
    let entity : EntityIndexRow :=
      { id := store.entityIndexes.length + 1
        consentId := consent.id
        patientId := patient.id
        patient_name := nameVal
        patient_email := emailVal2
        patient_dob := pyDictGetD analysis "patient_dob" .none
        doctor_name := pyDictGetD analysis "doctor_name" .none
        procedure := pyDictGetD analysis "procedure" .none
        procedure_date := pyDictGetD analysis "procedure_date" .none
        consented_items := pyJsonDumps (pyDictGetD analysis "consented_items" (.list []))
        declined_items := pyJsonDumps (pyDictGetD analysis "declined_items" (.list []))
        summary := pyDictGetD analysis "summary" .none
        search_terms := search_terms }
    let committed : Store :=
      { patients := patients'
        consents := store.consents ++ [consent]
        entityIndexes := store.entityIndexes ++ [entity] }
    pure (committed,
      { patientId := patient.id
        patientName := patient_name
        patientEmail := patient_email
        defaultPassword := default_password
        consentId := consent.id
        filename := filename })

/-- See `store_consent_attempt` for the transaction body; this wrapper is
the `try/except/finally`: the single `commit` on success, the `rollback`
(unchanged store) on any raised exception. -/
def _store_consent_data (hashpw : String → String) (store : Store)
    (pdf_path ocr_text : String) (analysis : PyVal) :
    Store × Except PyErr StoreResult :=
  match store_consent_attempt hashpw store pdf_path ocr_text analysis with
  | .ok (s, r) => (s, .ok r)
  | .error e => (store, .error e)

/-- The filter on line 195 of `ingest_pdf.py`:
`[f for f in os.listdir(directory_path) if f.endswith('.pdf')]`. -/
def pdf_files (entries : List String) : List String :=
  entries.filter (fun f => pyEndsWith f ".pdf")

/-- Outcome of a directory batch run: the collected per-document result
dicts, the files actually handed to `process_pdf`, and the total count of
candidate PDF files (the summary prints `results.length`/`total`). -/
structure BatchOutcome where
  results : List StoreResult
  invoked : List String
  total : Nat

/-- `PDFIngestionService.process_directory`, with `process_pdf` abstracted
as a per-file outcome (text extraction, analysis and storage for one
document).  A failing document is caught, printed, and skipped
(`continue`); only successful results are collected. -/
def process_directory (isDir : Bool) (entries : List String)
    (process_pdf : String → Except PyErr StoreResult) : BatchOutcome :=
  if !isDir then ⟨[], [], 0⟩
  else
    let pdfs := pdf_files entries
    if pdfs.isEmpty then ⟨[], [], 0⟩
    else
      let results := pdfs.foldl (fun acc f =>
        match process_pdf f with
        | .ok r => acc ++ [r]
        | .error _ => acc) []
      ⟨results, pdfs, pdfs.length⟩

/-! ## `app.py`: the query and upload endpoints -/

/-- The fixed no-records answer of the `/api/query` route. -/
def no_consents_answer : String :=
  "I could not find any consent forms associated with your account. Please contact your healthcare provider if you believe this is an error."

/-- Build one consent dict of the `/api/query` route from an
`EntityIndex` row (`json.loads` on the serialized item lists; empty or
null columns become `[]` via the truthiness guard). -/
def consent_dict_of_row (e : EntityIndexRow) : Except PyErr PyVal := do
  let consented ←
    if e.consented_items = "" then pure (PyVal.list [])
    else jsonLoads e.consented_items
  let declined ←
    if e.declined_items = "" then pure (PyVal.list [])
    else jsonLoads e.declined_items
  pure (.dict
    [("patient_name", e.patient_name),
     ("patient_email", e.patient_email),
     ("doctor_name", e.doctor_name),
     ("procedure", e.procedure),
     ("procedure_date", e.procedure_date),
     ("consented_items", consented),
     ("declined_items", declined),
     ("summary", e.summary)])

/-- The consent-handling portion of the `/api/query` route (after session
validation): fetch the patient's `EntityIndex` rows; when there are none,
return the fixed message without calling `answer_query`; otherwise build
the consent dicts and call `answer_query`.  The second component records
whether the reasoning capability was invoked. -/
def query_route (store : Store) (patient_id : Nat) (query_text : String)
    (capResult : Except String String) : (Except PyErr String) × Bool :=
  let consents := store.entityIndexes.filter (fun e => e.patientId = patient_id)
  if consents.isEmpty then (.ok no_consents_answer, false)
  else
    match consents.mapM consent_dict_of_row with
    | .error e => (.error e, false)
    | .ok consent_data => answer_query query_text consent_data capResult

/-- The persistence portion of the `/api/upload` route (after text
extraction and analysis): the `Consent` row is committed first, then the
`EntityIndex` row is built and committed in a second transaction.  An
exception while building the index row (for example `' '.join` over a
`consented_items` list holding a non-string) escapes to the route's
handler after the first commit, leaving the consent persisted without its
index row. -/
def upload_consent (store : Store) (patient_id : Nat)
    (filename text : String) (analysis : PyVal) : Store × Except PyErr Unit :=
  let patient? := store.patients.find? (fun p => p.id = patient_id)
  let consent : ConsentRow :=
    { id := store.consents.length + 1
      patientId := patient_id
      filename := filename
      fullText := text
      aiAnalysisJson := pyJsonDumps analysis }
  let store1 : Store := { store with consents := store.consents ++ [consent] }
  let buildEntity : Except PyErr EntityIndexRow := do
    let patient ← match patient? with
      | some p => Except.ok p
      | Option.none => Except.error PyErr.attributeError
    let joined ← pyJoinVal " " (pyDictGetD analysis "consented_items" (.list []))
    pure
      { id := store.entityIndexes.length + 1
        consentId := consent.id
        patientId := patient_id
        patient_name := pyDictGetD analysis "patient_name" patient.patient_name
        patient_email := pyDictGetD analysis "patient_email" (.str patient.email)
        patient_dob := pyDictGetD analysis "patient_dob" .none
        doctor_name := pyDictGetD analysis "doctor_name" .none
        procedure := pyDictGetD analysis "procedure" .none
        procedure_date := pyDictGetD analysis "procedure_date" .none
        consented_items := pyJsonDumps (pyDictGetD analysis "consented_items" (.list []))
        declined_items := pyJsonDumps (pyDictGetD analysis "declined_items" (.list []))
        summary := pyDictGetD analysis "summary" (.str "")
        search_terms := pyLower (String.intercalate " "
          [pyStr (pyDictGetD analysis "patient_name" (.str "")),
           pyStr (pyDictGetD analysis "doctor_name" (.str "")),
           pyStr (pyDictGetD analysis "procedure" (.str "")),
           joined]) }
  match buildEntity with
  | .ok entity =>
      ({ store1 with entityIndexes := store.entityIndexes ++ [entity] }, .ok ())
  | .error e => (store1, .error e)

example : derive_default_password (.str "Maria Garcia") = .ok "maria123!" := rfl
example : derive_default_password (.str "") = .error .indexError := rfl
example : pdf_files ["a.pdf", "b.PDF", "c.txt"] = ["a.pdf"] := rfl

/-! ## Claim C9: the derived default credential -/

/-- Claim C9 counterexample: the derivation is not total on an empty
patient name — `''.split()[0]` raises `IndexError`, so an empty
`patient_name` does not yield the credential `"unknown123!"`. -/
theorem derive_password_empty_name_raises :
    derive_default_password (.str "") = .error .indexError ∧
    derive_default_password (.str "   ") = .error .indexError := ⟨rfl, rfl⟩

/-- Claim C9 (amended): for every patient name whose whitespace-split
token list is non-empty, the derived credential is the first token
lower-cased with the suffix `123!`; `"Maria Garcia"` yields
`"maria123!"` and `"Unknown"` yields `"unknown123!"`; but an empty or
all-whitespace name raises `IndexError` (the token list is empty), and a
non-string name raises `AttributeError`. -/
theorem derive_default_password_spec :
    (∀ s t ts, pySplitWs s = t :: ts →
        derive_default_password (.str s) = .ok (pyLower t ++ "123!")) ∧
    derive_default_password (.str "Maria Garcia") = .ok "maria123!" ∧
    derive_default_password (.str "Unknown") = .ok "unknown123!" ∧
    (∀ s, pySplitWs s = [] → derive_default_password (.str s) = .error .indexError) ∧
    (∀ n, derive_default_password (.int n) = .error .attributeError) := by
  refine ⟨?_, rfl, rfl, ?_, fun n => rfl⟩
  · intro s t ts h
    simp [derive_default_password, h]
  · intro s h
    simp [derive_default_password, h]

/-- Claim C9 witness: the general token rule of
`derive_default_password_spec` applied at the concrete name "Ann B". -/
theorem derive_default_password_spec_witness :
    derive_default_password (.str "Ann B") = .ok (pyLower "Ann" ++ "123!") :=
  derive_default_password_spec.1 "Ann B" "Ann" ["B"] rfl

/-! ## Claim C10: which directory entries a batch run considers -/

/-- Claim C10: batch ingestion considers exactly the directory entries
ending in the lowercase suffix `.pdf`: those files (and only those) are
handed to `process_pdf`; a name ending in `.PDF` is not among them; and
when no entry has the suffix, nothing is processed and no results are
produced. -/
theorem batch_considers_only_lowercase_pdf :
    ∀ (entries : List String) (oracle : String → Except PyErr StoreResult),
      (process_directory true entries oracle).invoked = pdf_files entries ∧
      pdf_files entries = entries.filter (fun f => pyEndsWith f ".pdf") ∧
      (∀ f ∈ entries, pyEndsWith f ".pdf" = false →
        f ∉ (process_directory true entries oracle).invoked) ∧
      (pdf_files entries = [] →
        (process_directory true entries oracle).results = []) ∧
      pyEndsWith "scan.PDF" ".pdf" = false := by
  intro entries oracle
  have hinv : (process_directory true entries oracle).invoked = pdf_files entries := by
    unfold process_directory
    split
    · simp_all
    · dsimp only
      split
      · simp_all [List.isEmpty_iff]
      · rfl
  refine ⟨hinv, rfl, ?_, ?_, rfl⟩
  · intro f hf hnot
    rw [hinv]
    unfold pdf_files
    simp [List.mem_filter, hnot]
  · intro hempty
    unfold process_directory
    split
    · rfl
    · dsimp only
      split
      · rfl
      · simp_all [List.isEmpty_iff]

/-- Claim C10 witness: `batch_considers_only_lowercase_pdf` applied to a
concrete directory in which only `b.pdf` qualifies. -/
theorem batch_considers_only_lowercase_pdf_witness :
    "a.PDF" ∉ (process_directory true ["a.PDF", "b.pdf", "c.txt"]
      (fun f => .ok { patientId := 1, patientName := .str "P",
                      patientEmail := "p@x.com", defaultPassword := some "p123!",
                      consentId := 1, filename := f })).invoked :=
  (batch_considers_only_lowercase_pdf ["a.PDF", "b.pdf", "c.txt"] _).2.2.1
    "a.PDF" (by simp) rfl

/-! ## Claim C5: the auto-mode fallback threshold -/

/-- Claim C5 counterexample: a document whose primary extraction yields a
stripped text of length exactly 50 (so "at least 50" holds) is NOT
returned from the primary strategy in auto mode — the code requires
strictly more than 50 characters, so the secondary (Tesseract) strategy
is invoked and its result returned instead. -/
theorem auto_mode_at_exactly_50_uses_secondary :
    (pyStrip "aaaaaaaaaaaaaaaaaaaaaaaaaaaaaaaaaaaaaaaaaaaaaaaaaa").length = 50 ∧
    extract_text_from_pdf "auto" true
        (.ok "aaaaaaaaaaaaaaaaaaaaaaaaaaaaaaaaaaaaaaaaaaaaaaaaaa")
        (.ok "TESSERACT TEXT")
      = (.ok "TESSERACT TEXT", true) := ⟨rfl, rfl⟩

/-- Claim C5 (amended): in auto mode the primary (pdfplumber) result is
returned, without invoking the secondary strategy, exactly when its
stripped text has MORE than 50 characters; at 50 characters or fewer, or
when the primary raises, the secondary (Tesseract) outcome is returned
and the primary's error is not propagated. -/
theorem extract_auto_threshold_spec :
    (∀ text tess, 50 < (pyStrip text).length →
        extract_text_from_pdf "auto" true (.ok text) tess = (.ok text, false)) ∧
    (∀ text tess, (pyStrip text).length ≤ 50 →
        extract_text_from_pdf "auto" true (.ok text) tess = (tess, true)) ∧
    (∀ e tess, extract_text_from_pdf "auto" true (.error e) tess = (tess, true)) := by
  refine ⟨?_, ?_, ?_⟩
  · intro text tess h
    simp [extract_text_from_pdf, h]
  · intro text tess h
    simp [extract_text_from_pdf, Nat.not_lt.mpr h]
  · intro e tess
    simp [extract_text_from_pdf]

/-- Claim C5 witness: `extract_auto_threshold_spec` applied at a 51- and
a 3-character primary result and at a failing primary. -/
theorem extract_auto_threshold_spec_witness :
    extract_text_from_pdf "auto" true
        (.ok "aaaaaaaaaaaaaaaaaaaaaaaaaaaaaaaaaaaaaaaaaaaaaaaaaaa") (.ok "T")
      = (.ok "aaaaaaaaaaaaaaaaaaaaaaaaaaaaaaaaaaaaaaaaaaaaaaaaaaa", false) ∧
    extract_text_from_pdf "auto" true (.ok "abc") (.ok "T") = (.ok "T", true) ∧
    extract_text_from_pdf "auto" true (.error "boom") (.ok "T") = (.ok "T", true) :=
  ⟨extract_auto_threshold_spec.1 _ _ (by decide),
   extract_auto_threshold_spec.2.1 _ _ (by decide),
   extract_auto_threshold_spec.2.2 "boom" _⟩

/-! ## Claim C7: batch partial-failure semantics -/

/-- A sample per-document success used by the batch scenarios. -/
def sample_result (f : String) : StoreResult :=
  { patientId := 1, patientName := .str "P", patientEmail := "p@x.com",
    defaultPassword := some "p123!", consentId := 1, filename := f }

/-- A `process_pdf` outcome in which the second of three documents
raises (extraction failure) and the others succeed. -/
def failing_second_oracle (f : String) : Except PyErr StoreResult :=
  if f = "doc2.pdf" then .error .jsonDecodeError else .ok (sample_result f)

/-- Claim C7 counterexample: in a directory of 3 documents where #2
fails, the collected result sequence has length 2, not 3 — the failure
is only printed and skipped (`continue`), never recorded as an entry, so
no entry marks document #2 as failed. -/
theorem batch_failure_produces_no_entry :
    ((process_directory true ["doc1.pdf", "doc2.pdf", "doc3.pdf"]
        failing_second_oracle).results.map (fun r => r.filename))
      = ["doc1.pdf", "doc3.pdf"] ∧
    (process_directory true ["doc1.pdf", "doc2.pdf", "doc3.pdf"]
        failing_second_oracle).results.length = 2 ∧
    (process_directory true ["doc1.pdf", "doc2.pdf", "doc3.pdf"]
        failing_second_oracle).total = 3 := ⟨rfl, rfl, rfl⟩

/-- Helper: the collecting fold of `process_directory` appends exactly
the successful outcomes, in order. -/
theorem foldl_collect_ok (oracle : String → Except PyErr StoreResult) :
    ∀ (l : List String) (acc : List StoreResult),
      l.foldl (fun acc f =>
        match oracle f with
        | .ok r => acc ++ [r]
        | .error _ => acc) acc
      = acc ++ l.filterMap (fun f => (oracle f).toOption) := by
  intro l
  induction l with
  | nil => simp
  | cons f fs ih =>
      intro acc
      cases h : oracle f with
      | ok r => simp [h, ih, Except.toOption]
      | error e => simp [h, ih, Except.toOption]

/-- Claim C7 (amended): every `.pdf` file of the directory is attempted
in order — a document's failure is caught and does not stop the batch —
but the result sequence collects only the successes (a failed document
contributes no entry), and the summary counts `results.length` successes
out of `total` candidate files. -/
theorem process_directory_partial_failure_spec :
    ∀ (entries : List String) (oracle : String → Except PyErr StoreResult),
      (process_directory true entries oracle).results
          = (pdf_files entries).filterMap (fun f => (oracle f).toOption) ∧
      (process_directory true entries oracle).invoked = pdf_files entries ∧
      (process_directory true entries oracle).total = (pdf_files entries).length := by
  intro entries oracle
  unfold process_directory
  split
  · simp_all
  · dsimp only
    split
    · simp_all [List.isEmpty_iff]
    · exact ⟨by rw [foldl_collect_ok oracle _ []]; rfl, rfl, rfl⟩

/-! ## Claim C8: empty index entries short-circuit the query -/

/-- Claim C8: when a patient has no `EntityIndex` rows, the query route
returns the fixed "no records found" sentence and the reasoning
capability is not invoked, whatever the question and whatever the
capability would have answered. -/
theorem query_empty_entries_no_capability :
    ∀ (store : Store) (pid : Nat) (q : String) (cap : Except String String),
      store.entityIndexes.filter (fun e => e.patientId = pid) = [] →
      query_route store pid q cap = (.ok no_consents_answer, false) := by
  intro store pid q cap h
  unfold query_route
  simp [h]

/-- Claim C8 witness: `query_empty_entries_no_capability` applied to the
empty store (which has no index rows at all). -/
theorem query_empty_entries_no_capability_witness :
    query_route emptyStore 1 "What did I consent to?" (.ok "some model text")
      = (.ok no_consents_answer, false) :=
  query_empty_entries_no_capability emptyStore 1 "What did I consent to?"
    (.ok "some model text") rfl

/-! ## Claims C1/C2/C6: concrete ingestion scenarios -/

/-- A fully populated canonical record for patient Maria Garcia. -/
def maria_analysis : PyVal := .dict
  [("patient_name", .str "Maria Garcia"),
   ("patient_email", .str "Maria.Garcia@example.com"),
   ("patient_dob", .none),
   ("doctor_name", .str "Dr. Lee"),
   ("procedure", .str "Appendectomy"),
   ("procedure_date", .none),
   ("consented_items", .list [.str "surgery"]),
   ("declined_items", .list []),
   ("summary", .str "Consent form.")]

/-- A stand-in for the external bcrypt hash capability. -/
def demo_hashpw (pw : String) : String := "bcrypt-hash:" ++ pw

/-- Claim C1 counterexample: ingesting Maria's record into an empty store
creates one patient row whose persisted `default_password` column holds
the PLAINTEXT credential "maria123!" (alongside the hashed
`password_hash`), so a plaintext form of the credential IS stored in the
persistent state, not only transiently in memory. -/
theorem plaintext_credential_persisted :
    ((_store_consent_data demo_hashpw emptyStore "maria.pdf" "TEXT"
        maria_analysis).1.patients.map
      (fun p => (p.email, p.defaultPassword, p.passwordHash)))
      = [("maria.garcia@example.com", some "maria123!",
          demo_hashpw "maria123!")] ∧
    ((_store_consent_data demo_hashpw emptyStore "maria.pdf" "TEXT"
        maria_analysis).2.map (fun r => r.defaultPassword))
      = .ok (some "maria123!") := ⟨rfl, rfl⟩

/-- The store after Maria's first ingestion. -/
def maria_store1 : Store :=
  (_store_consent_data demo_hashpw emptyStore "maria.pdf" "TEXT" maria_analysis).1

/-- Claim C2 counterexample: a second ingestion resolving to the same
normalized email reuses the existing identity (no new patient row), but
the returned `default_password` is the stored plaintext "maria123!" from
the first call, NOT null — the plaintext credential is returned again for
an existing identity. -/
theorem existing_identity_returns_stored_plaintext :
    ((_store_consent_data demo_hashpw maria_store1 "maria2.pdf" "TEXT2"
        maria_analysis).2.map (fun r => (r.patientId, r.defaultPassword)))
      = .ok (1, some "maria123!") ∧
    (_store_consent_data demo_hashpw maria_store1 "maria2.pdf" "TEXT2"
        maria_analysis).1.patients.length = 1 ∧
    maria_store1.patients.length = 1 := ⟨rfl, rfl, rfl⟩

/-- A canonical record whose `consented_items` holds a non-string
element; `_validate_analysis` keeps such a list unchanged. -/
def bad_items_analysis : PyVal := .dict
  [("patient_name", .str "Maria Garcia"),
   ("patient_email", .str "maria@example.com"),
   ("patient_dob", .none),
   ("doctor_name", .str "Dr. Lee"),
   ("procedure", .str "Appendectomy"),
   ("procedure_date", .none),
   ("consented_items", .list [.int 1]),
   ("declined_items", .list []),
   ("summary", .str "S.")]

/-- The store holding only Maria's account, before an upload. -/
def upload_base_store : Store :=
  { patients := [{ id := 1, email := "maria@example.com", passwordHash := "HASH",
                   patient_name := .str "Maria Garcia",
                   defaultPassword := some "maria123!" }],
    consents := [], entityIndexes := [] }

set_option maxRecDepth 8000 in
/-- Claim C6 counterexample: the upload route commits the `Consent` row
in a first transaction, then fails while building the `EntityIndex` row
(`' '.join` over `[1]` raises `TypeError`), leaving the consent persisted
with no index row — ingestion is NOT all-or-nothing.  The offending
record is reachable: it is exactly what `analyze_consent_form` returns
for a well-formed capability response. -/
theorem upload_partial_persistence :
    analyze_consent_form (.ok ("\x7b\"patient_name\": \"Maria Garcia\", \"patient_email\": \"maria@example.com\", \"patient_dob\": null, \"doctor_name\": \"Dr. Lee\", \"procedure\": \"Appendectomy\", \"procedure_date\": null, \"consented_items\": [1], \"declined_items\": [], \"summary\": \"S.\"\x7d"))
        = .ok bad_items_analysis ∧
    (upload_consent upload_base_store 1 "f.pdf" "TEXT" bad_items_analysis).2
        = .error .typeError ∧
    (upload_consent upload_base_store 1 "f.pdf" "TEXT"
        bad_items_analysis).1.consents.length = 1 ∧
    (upload_consent upload_base_store 1 "f.pdf" "TEXT"
        bad_items_analysis).1.entityIndexes.length = 0 ∧
    upload_base_store.consents.length = 0 := ⟨rfl, rfl, rfl, rfl, rfl⟩

/-- Inversion of a successful `Except` bind. -/
theorem except_bind_ok_inv {ε α β : Type} {x : Except ε α} {f : α → Except ε β}
    {b : β} (h : x >>= f = .ok b) : ∃ a, x = .ok a ∧ f a = .ok b := by
  cases x with
  | ok a => exact ⟨a, rfl, h⟩
  | error e => exact absurd h (by simp [Bind.bind, Except.bind])

/-- Shape of a successful `store_consent_attempt`: the committed store
appends exactly one consent row and one index row, and either reuses the
patient table or appends exactly one patient row. -/
theorem store_consent_attempt_ok_shape
    (hashpw : String → String) (store : Store) (path text : String)
    (analysis : PyVal) (s : Store) (r : StoreResult)
    (h : store_consent_attempt hashpw store path text analysis = .ok (s, r)) :
    s.consents.length = store.consents.length + 1 ∧
    s.entityIndexes.length = store.entityIndexes.length + 1 ∧
    (s.patients = store.patients ∨
      s.patients.length = store.patients.length + 1) := by
  unfold store_consent_attempt at h
  obtain ⟨emailVal, h1, h⟩ := except_bind_ok_inv h
  obtain ⟨pe, h2, h⟩ := except_bind_ok_inv h
  obtain ⟨pn, h3, h⟩ := except_bind_ok_inv h
  obtain ⟨⟨patients', patient, dp⟩, h4, h⟩ := except_bind_ok_inv h
  dsimp only at h
  obtain ⟨nameVal, h5, h⟩ := except_bind_ok_inv h
  obtain ⟨emailVal2, h6, h⟩ := except_bind_ok_inv h
  obtain ⟨terms, h7, h⟩ := except_bind_ok_inv h
  have hs : s = { patients := patients',
                  consents := store.consents ++
                    [{ id := store.consents.length + 1, patientId := patient.id,
                       filename := pyBasename path, fullText := text,
                       aiAnalysisJson := pyJsonDumps analysis }],
                  entityIndexes := store.entityIndexes ++
                    [{ id := store.entityIndexes.length + 1,
                       consentId := store.consents.length + 1,
                       patientId := patient.id, patient_name := nameVal,
                       patient_email := emailVal2,
                       patient_dob := pyDictGetD analysis "patient_dob" .none,
                       doctor_name := pyDictGetD analysis "doctor_name" .none,
                       procedure := pyDictGetD analysis "procedure" .none,
                       procedure_date := pyDictGetD analysis "procedure_date" .none,
                       consented_items :=
                         pyJsonDumps (pyDictGetD analysis "consented_items" (.list [])),
                       declined_items :=
                         pyJsonDumps (pyDictGetD analysis "declined_items" (.list [])),
                       summary := pyDictGetD analysis "summary" .none,
                       search_terms := terms }] } := by
    have := h
    simp only [pure, Except.pure, Except.ok.injEq, Prod.mk.injEq] at this
    exact this.1.symm
  have hpat : patients' = store.patients ∨
      patients'.length = store.patients.length + 1 := by
    unfold resolve_patient_rows at h4
    cases hfind : store.patients.find? (fun p => p.email = pe) with
    | some q =>
        rw [hfind] at h4
        simp only [pure, Except.pure, Except.ok.injEq, Prod.mk.injEq] at h4
        exact Or.inl h4.1.symm
    | none =>
        rw [hfind] at h4
        obtain ⟨pw, hpw, h4⟩ := except_bind_ok_inv h4
        simp only [pure, Except.pure, Except.ok.injEq, Prod.mk.injEq] at h4
        right
        rw [← h4.1]
        simp
  subst hs
  refine ⟨by simp, by simp, ?_⟩
  rcases hpat with hp | hp
  · exact Or.inl hp
  · exact Or.inr hp

/-- Claim C6 (amended, script path): `_store_consent_data` is a single
transaction — on any error the store is returned unchanged (rollback),
and on success exactly one consent row and one index row are committed
together with either a reused or exactly one new patient row.  (The
upload route is NOT atomic; see `upload_partial_persistence`.) -/
theorem ingestion_transaction_spec :
    ∀ (hashpw : String → String) (store : Store) (path text : String)
      (analysis : PyVal),
      ((_store_consent_data hashpw store path text analysis).2.isOk = false →
        (_store_consent_data hashpw store path text analysis).1 = store) ∧
      ((_store_consent_data hashpw store path text analysis).2.isOk = true →
        (_store_consent_data hashpw store path text analysis).1.consents.length
            = store.consents.length + 1 ∧
        (_store_consent_data hashpw store path text analysis).1.entityIndexes.length
            = store.entityIndexes.length + 1 ∧
        ((_store_consent_data hashpw store path text analysis).1.patients
            = store.patients ∨
         (_store_consent_data hashpw store path text analysis).1.patients.length
            = store.patients.length + 1)) := by
  intro hashpw store path text analysis
  cases h : store_consent_attempt hashpw store path text analysis with
  | error e =>
      constructor
      · intro _
        simp [_store_consent_data, h]
      · intro hok
        rw [_store_consent_data, h] at hok
        simp [Except.isOk, Except.toBool] at hok
  | ok sr =>
      obtain ⟨s, r⟩ := sr
      have hshape := store_consent_attempt_ok_shape hashpw store path text analysis s r h
      constructor
      · intro hok
        rw [_store_consent_data, h] at hok
        simp [Except.isOk, Except.toBool] at hok
      · intro _
        simpa [_store_consent_data, h] using hshape

/-- Claim C6 witness: `ingestion_transaction_spec` applied to Maria's
concrete ingestion into the empty store, whose transaction succeeds. -/
theorem ingestion_transaction_spec_witness :
    (_store_consent_data demo_hashpw emptyStore "maria.pdf" "TEXT"
        maria_analysis).1.consents.length = emptyStore.consents.length + 1 ∧
    (_store_consent_data demo_hashpw emptyStore "maria.pdf" "TEXT"
        maria_analysis).1.entityIndexes.length
      = emptyStore.entityIndexes.length + 1 ∧
    ((_store_consent_data demo_hashpw emptyStore "maria.pdf" "TEXT"
        maria_analysis).1.patients = emptyStore.patients ∨
     (_store_consent_data demo_hashpw emptyStore "maria.pdf" "TEXT"
        maria_analysis).1.patients.length = emptyStore.patients.length + 1) :=
  (ingestion_transaction_spec demo_hashpw emptyStore "maria.pdf" "TEXT"
    maria_analysis).2 rfl

/-- Inversion of a successful ingestion that created a new patient: the
committed patient table appends exactly one row whose `password_hash` is
the hash of the derived plaintext and whose `default_password` column
holds that same plaintext, which is also the plaintext returned in the
result dict. -/
theorem store_consent_new_patient
    (hashpw : String → String) (store : Store) (path text : String)
    (analysis : PyVal) (em : String) (nameV : PyVal) (s : Store)
    (r : StoreResult)
    (hem : pyGetItem analysis "patient_email" = .ok (.str em))
    (hname : pyGetItem analysis "patient_name" = .ok nameV)
    (hnew : store.patients.find? (fun p => p.email = pyLower em) = Option.none)
    (h : store_consent_attempt hashpw store path text analysis = .ok (s, r)) :
    ∃ pw, derive_default_password nameV = .ok pw ∧
      s.patients = store.patients ++
        [{ id := store.patients.length + 1, email := pyLower em,
           passwordHash := hashpw pw, patient_name := nameV,
           defaultPassword := some pw }] ∧
      r.defaultPassword = some pw := by
  unfold store_consent_attempt at h
  obtain ⟨emailVal, h1, h⟩ := except_bind_ok_inv h
  rw [hem] at h1
  injection h1 with h1
  subst h1
  obtain ⟨pe, h2, h⟩ := except_bind_ok_inv h
  rw [show pyLowerStr (.str em) = .ok (pyLower em) from rfl] at h2
  injection h2 with h2
  subst h2
  obtain ⟨pn, h3, h⟩ := except_bind_ok_inv h
  rw [hname] at h3
  injection h3 with h3
  subst h3
  obtain ⟨⟨patients', patient, dp⟩, h4, h⟩ := except_bind_ok_inv h
  unfold resolve_patient_rows at h4
  rw [hnew] at h4
  obtain ⟨pw, hpw, h4⟩ := except_bind_ok_inv h4
  simp only [pure, Except.pure, Except.ok.injEq, Prod.mk.injEq] at h4
  obtain ⟨hpats, hpatient, hdp⟩ := h4
  dsimp only at h
  obtain ⟨nameVal, h5, h⟩ := except_bind_ok_inv h
  obtain ⟨emailVal2, h6, h⟩ := except_bind_ok_inv h
  obtain ⟨terms, h7, h⟩ := except_bind_ok_inv h
  simp only [pure, Except.pure, Except.ok.injEq, Prod.mk.injEq] at h
  refine ⟨pw, hpw, ?_, ?_⟩
  · rw [← h.1]
    dsimp only
    rw [← hpats]
  · rw [← h.2]
    dsimp only
    rw [← hdp]

/-- Claim C1 (amended): when `resolve_or_create` creates a new
`PatientIdentity`, the hashed form of the derived credential is stored in
`password_hash` — but the PLAINTEXT credential is also persisted, in the
row's `default_password` column, equal to the plaintext returned for
out-of-band delivery.  (The claim's "no plaintext form is stored" is
refuted by `plaintext_credential_persisted`.) -/
theorem new_patient_credential_storage
    (hashpw : String → String) (store : Store) (path text : String)
    (analysis : PyVal) (em : String) (nameV : PyVal)
    (hem : pyGetItem analysis "patient_email" = .ok (.str em))
    (hname : pyGetItem analysis "patient_name" = .ok nameV)
    (hnew : store.patients.find? (fun p => p.email = pyLower em) = Option.none)
    (hok : (_store_consent_data hashpw store path text analysis).2.isOk = true) :
    ∃ pw, derive_default_password nameV = .ok pw ∧
      (_store_consent_data hashpw store path text analysis).1.patients
        = store.patients ++
          [{ id := store.patients.length + 1, email := pyLower em,
             passwordHash := hashpw pw, patient_name := nameV,
             defaultPassword := some pw }] ∧
      (∀ r, (_store_consent_data hashpw store path text analysis).2 = .ok r →
        r.defaultPassword = some pw) := by
  cases h : store_consent_attempt hashpw store path text analysis with
  | error e =>
      rw [_store_consent_data, h] at hok
      simp [Except.isOk, Except.toBool] at hok
  | ok sr =>
      obtain ⟨s, r⟩ := sr
      obtain ⟨pw, hpw, hpats, hdp⟩ :=
        store_consent_new_patient hashpw store path text analysis em nameV s r
          hem hname hnew h
      refine ⟨pw, hpw, ?_, ?_⟩
      · rw [_store_consent_data, h]
        exact hpats
      · intro r' hr'
        rw [_store_consent_data, h] at hr'
        injection hr' with hr'
        rw [← hr']
        exact hdp

/-- Claim C1 witness: `new_patient_credential_storage` applied to Maria's
concrete ingestion into the empty store. -/
theorem new_patient_credential_storage_witness :
    ∃ pw, derive_default_password (.str "Maria Garcia") = .ok pw ∧
      (_store_consent_data demo_hashpw emptyStore "maria.pdf" "TEXT"
          maria_analysis).1.patients
        = emptyStore.patients ++
          [{ id := emptyStore.patients.length + 1,
             email := pyLower "Maria.Garcia@example.com",
             passwordHash := demo_hashpw pw,
             patient_name := .str "Maria Garcia",
             defaultPassword := some pw }] ∧
      (∀ r, (_store_consent_data demo_hashpw emptyStore "maria.pdf" "TEXT"
          maria_analysis).2 = .ok r → r.defaultPassword = some pw) :=
  new_patient_credential_storage demo_hashpw emptyStore "maria.pdf" "TEXT"
    maria_analysis "Maria.Garcia@example.com" (.str "Maria Garcia")
    rfl rfl rfl rfl

/-- Inversion of an ingestion that found an existing patient: the
committed patient table is unchanged, and the result dict carries the
found row's id and its STORED `default_password` column (no credential is
re-derived). -/
theorem store_consent_existing_patient
    (hashpw : String → String) (store : Store) (path text : String)
    (analysis : PyVal) (em : String) (p : PatientRow) (s : Store)
    (r : StoreResult)
    (hem : pyGetItem analysis "patient_email" = .ok (.str em))
    (hfound : store.patients.find? (fun q => q.email = pyLower em) = some p)
    (h : store_consent_attempt hashpw store path text analysis = .ok (s, r)) :
    s.patients = store.patients ∧ r.patientId = p.id ∧
    r.defaultPassword = p.defaultPassword ∧ r.patientEmail = pyLower em := by
  unfold store_consent_attempt at h
  obtain ⟨emailVal, h1, h⟩ := except_bind_ok_inv h
  rw [hem] at h1
  injection h1 with h1
  subst h1
  obtain ⟨pe, h2, h⟩ := except_bind_ok_inv h
  rw [show pyLowerStr (.str em) = .ok (pyLower em) from rfl] at h2
  injection h2 with h2
  subst h2
  obtain ⟨pn, h3, h⟩ := except_bind_ok_inv h
  obtain ⟨⟨patients', patient, dp⟩, h4, h⟩ := except_bind_ok_inv h
  unfold resolve_patient_rows at h4
  rw [hfound] at h4
  simp only [pure, Except.pure, Except.ok.injEq, Prod.mk.injEq] at h4
  obtain ⟨hpats, hpatient, hdp⟩ := h4
  dsimp only at h
  obtain ⟨nameVal, h5, h⟩ := except_bind_ok_inv h
  obtain ⟨emailVal2, h6, h⟩ := except_bind_ok_inv h
  obtain ⟨terms, h7, h⟩ := except_bind_ok_inv h
  simp only [pure, Except.pure, Except.ok.injEq, Prod.mk.injEq] at h
  refine ⟨?_, ?_, ?_, ?_⟩
  · rw [← h.1]
    dsimp only
    rw [← hpats]
  · rw [← h.2, ← hpatient]
  · rw [← h.2, ← hdp]
  · rw [← h.2]

/-- Claim C2 (amended): when the normalized email already has a
`PatientIdentity`, `_store_consent_data` reuses it unchanged (no new
patient row, and created-is-false in the sense that the patient table is
untouched) and never re-derives a credential — but the result's
`default_password` field is NOT null: it carries the plaintext stored in
the row's `default_password` column at creation time (null only if that
column is null).  (The claim's `plaintext_credential=null` is refuted by
`existing_identity_returns_stored_plaintext`.) -/
theorem existing_identity_reused
    (hashpw : String → String) (store : Store) (path text : String)
    (analysis : PyVal) (em : String) (p : PatientRow)
    (hem : pyGetItem analysis "patient_email" = .ok (.str em))
    (hfound : store.patients.find? (fun q => q.email = pyLower em) = some p) :
    (_store_consent_data hashpw store path text analysis).1.patients
        = store.patients ∧
    (∀ r, (_store_consent_data hashpw store path text analysis).2 = .ok r →
      r.patientId = p.id ∧ r.defaultPassword = p.defaultPassword) := by
  cases h : store_consent_attempt hashpw store path text analysis with
  | error e =>
      constructor
      · simp [_store_consent_data, h]
      · intro r' hr'
        rw [_store_consent_data, h] at hr'
        exact absurd hr' (by simp)
  | ok sr =>
      obtain ⟨s, r⟩ := sr
      obtain ⟨hpats, hid, hdp, hml⟩ :=
        store_consent_existing_patient hashpw store path text analysis em p s r
          hem hfound h
      constructor
      · rw [_store_consent_data, h]
        exact hpats
      · intro r' hr'
        rw [_store_consent_data, h] at hr'
        injection hr' with hr'
        rw [← hr']
        exact ⟨hid, hdp⟩

/-- Claim C2 witness: `existing_identity_reused` applied to the second
ingestion of Maria's record, against the store created by the first. -/
theorem existing_identity_reused_witness :
    (_store_consent_data demo_hashpw maria_store1 "maria2.pdf" "TEXT2"
        maria_analysis).1.patients = maria_store1.patients ∧
    (∀ r, (_store_consent_data demo_hashpw maria_store1 "maria2.pdf" "TEXT2"
        maria_analysis).2 = .ok r →
      r.patientId = 1 ∧ r.defaultPassword = some "maria123!") :=
  existing_identity_reused demo_hashpw maria_store1 "maria2.pdf" "TEXT2"
    maria_analysis "Maria.Garcia@example.com"
    { id := 1, email := "maria.garcia@example.com",
      passwordHash := demo_hashpw "maria123!",
      patient_name := .str "Maria Garcia",
      defaultPassword := some "maria123!" }
    rfl rfl

/-! ## Claim C4: the validation step -/

/-- The table-level effect of one `validate_field` iteration on a dict. -/
def dictValidate (kvs : List (String × PyVal)) (k : String) (d : PyVal) :
    List (String × PyVal) :=
  match dictFind? kvs k with
  | Option.none => dictSet kvs k d
  | some v => if isNoneVal v then dictSet kvs k d else kvs

/-- The per-key outcome of validation: the default when the key was
absent or explicitly `None`, the original value otherwise. -/
def resolveField : Option PyVal → PyVal → PyVal
  | Option.none, d => d
  | some v, d => if isNoneVal v then d else v

/-- On a dict, `validate_field` cannot raise and acts as `dictValidate`. -/
theorem validate_field_dict (kvs : List (String × PyVal)) (k : String)
    (d : PyVal) :
    validate_field (.dict kvs) k d = .ok (.dict (dictValidate kvs k d)) := by
  unfold validate_field dictValidate
  cases h : dictFind? kvs k with
  | none => simp [pyContains, pyGetItem, pySetItem, h, Bind.bind, Except.bind]
  | some v =>
      cases hn : isNoneVal v <;>
        simp [pyContains, pyGetItem, pySetItem, h, hn, Bind.bind, Except.bind,
          pure, Except.pure]

/-- Looking up the assigned key after a `dictSet`. -/
theorem dictFind?_dictSet_self (kvs : List (String × PyVal)) (k : String)
    (v : PyVal) : dictFind? (dictSet kvs k v) k = some v := by
  induction kvs with
  | nil => simp [dictSet, dictFind?]
  | cons kv rest ih =>
      obtain ⟨k', v'⟩ := kv
      by_cases h : k' = k <;> simp [dictSet, dictFind?, h, ih]

/-- Looking up another key after a `dictSet`. -/
theorem dictFind?_dictSet_ne (kvs : List (String × PyVal)) (k k' : String)
    (v : PyVal) (h : k' ≠ k) :
    dictFind? (dictSet kvs k v) k' = dictFind? kvs k' := by
  induction kvs with
  | nil => simp [dictSet, dictFind?, Ne.symm h]
  | cons kv rest ih =>
      obtain ⟨k'', v''⟩ := kv
      by_cases h2 : k'' = k
      · subst h2
        simp [dictSet, dictFind?, Ne.symm h]
      · simp only [dictSet, if_neg h2]
        simp [dictFind?, ih]

/-- Looking up the validated key after `dictValidate`. -/
theorem dictFind?_dictValidate_self (kvs : List (String × PyVal))
    (k : String) (d : PyVal) :
    dictFind? (dictValidate kvs k d) k = some (resolveField (dictFind? kvs k) d) := by
  unfold dictValidate resolveField
  cases h : dictFind? kvs k with
  | none => simp [dictFind?_dictSet_self]
  | some v => cases hn : isNoneVal v <;> simp [hn, dictFind?_dictSet_self, h]

/-- Looking up another key after `dictValidate`. -/
theorem dictFind?_dictValidate_ne (kvs : List (String × PyVal))
    (k k' : String) (d : PyVal) (h : k' ≠ k) :
    dictFind? (dictValidate kvs k d) k' = dictFind? kvs k' := by
  unfold dictValidate
  cases hf : dictFind? kvs k with
  | none => simp [dictFind?_dictSet_ne _ _ _ _ h]
  | some v => cases hn : isNoneVal v <;> simp [hn, dictFind?_dictSet_ne _ _ _ _ h]

/-- The fold of `validate_field` over any default table with distinct
keys: it cannot raise on a dict, every listed key ends up present with
its resolved value, and unlisted keys are untouched. -/
theorem validate_foldlM_spec :
    ∀ (ds : List (String × PyVal)) (kvs : List (String × PyVal)),
      (ds.map Prod.fst).Nodup →
      ∃ kvs',
        (ds.foldlM (fun a kd => validate_field a kd.1 kd.2) (PyVal.dict kvs))
          = .ok (.dict kvs') ∧
        (∀ k, k ∉ ds.map Prod.fst → dictFind? kvs' k = dictFind? kvs k) ∧
        (∀ kd ∈ ds, dictFind? kvs' kd.1
          = some (resolveField (dictFind? kvs kd.1) kd.2)) := by
  intro ds
  induction ds with
  | nil =>
      intro kvs _
      exact ⟨kvs, rfl, fun k _ => rfl, fun kd h => absurd h (List.not_mem_nil kd)⟩
  | cons kd0 rest ih =>
      intro kvs hnd
      obtain ⟨k, d⟩ := kd0
      simp only [List.map_cons, List.nodup_cons] at hnd
      obtain ⟨hknotin, hndrest⟩ := hnd
      obtain ⟨kvs', heq, houtside, hmem⟩ := ih (dictValidate kvs k d) hndrest
      refine ⟨kvs', ?_, ?_, ?_⟩
      · rw [List.foldlM_cons, validate_field_dict]
        simpa using heq
      · intro k' hk'
        simp only [List.map_cons, List.mem_cons, not_or] at hk'
        rw [houtside k' hk'.2, dictFind?_dictValidate_ne _ _ _ _ hk'.1]
      · intro kd hkd
        rcases List.mem_cons.mp hkd with heq' | hrest
        · subst heq'
          rw [houtside k hknotin, dictFind?_dictValidate_self]
        · have hne : kd.1 ≠ k := by
            intro hcontra
            exact hknotin (hcontra ▸ List.mem_map_of_mem Prod.fst hrest)
          rw [hmem kd hrest, dictFind?_dictValidate_ne _ _ _ _ hne]

/-- A field whose default is not null is never null after resolution. -/
theorem isNoneVal_resolveField (o : Option PyVal) (d : PyVal)
    (hd : isNoneVal d = false) : isNoneVal (resolveField o d) = false := by
  cases o with
  | none => simpa [resolveField]
  | some w =>
      unfold resolveField
      cases hw : isNoneVal w <;> simp [hw, hd]

/-- Claim C4 counterexample: validation of the empty parsed object yields
the full default record, in which the required fields `patient_dob` and
`procedure_date` are present but NULL — so it is false that every
required field is non-null after validation. -/
theorem validated_record_has_null_field :
    _validate_analysis (.dict []) = .ok _get_default_analysis ∧
    dictFind? default_analysis_fields "patient_dob" = some PyVal.none ∧
    dictFind? default_analysis_fields "procedure_date" = some PyVal.none :=
  ⟨rfl, rfl, rfl⟩

/-- Claim C4 (amended): for every parsed JSON object, validation
succeeds and produces an object in which every required field is
PRESENT; a field absent or explicitly null in the input is replaced by
its documented default and an already-present non-null value is kept
unchanged; since the documented defaults of `patient_dob` and
`procedure_date` are null, those two fields (and only those) may still be
null after validation; keys outside the required set are untouched. -/
theorem validate_analysis_spec :
    ∀ kvs : List (String × PyVal),
      ∃ kvs', _validate_analysis (.dict kvs) = .ok (.dict kvs') ∧
        (∀ kd ∈ default_analysis_fields,
          dictFind? kvs' kd.1 = some (resolveField (dictFind? kvs kd.1) kd.2)) ∧
        (∀ kd ∈ default_analysis_fields, ∀ v, dictFind? kvs' kd.1 = some v →
          isNoneVal v = true → kd.1 = "patient_dob" ∨ kd.1 = "procedure_date") ∧
        (∀ k, k ∉ default_analysis_fields.map Prod.fst →
          dictFind? kvs' k = dictFind? kvs k) := by
  intro kvs
  obtain ⟨kvs', heq, houtside, hmem⟩ :=
    validate_foldlM_spec default_analysis_fields kvs (by decide)
  refine ⟨kvs', heq, hmem, ?_, houtside⟩
  intro kd hkd v hv hnone
  have hres := hmem kd hkd
  rw [hv] at hres
  injection hres with hres
  subst hres
  simp only [default_analysis_fields, List.mem_cons, List.not_mem_nil,
    or_false] at hkd
  rcases hkd with rfl | rfl | rfl | rfl | rfl | rfl | rfl | rfl | rfl
  · simp [isNoneVal_resolveField (dictFind? kvs "patient_name")
      (PyVal.str "Unknown") rfl] at hnone
  · simp [isNoneVal_resolveField (dictFind? kvs "patient_email")
      (PyVal.str "unknown@example.com") rfl] at hnone
  · exact Or.inl rfl
  · simp [isNoneVal_resolveField (dictFind? kvs "doctor_name")
      (PyVal.str "Unknown") rfl] at hnone
  · simp [isNoneVal_resolveField (dictFind? kvs "procedure")
      (PyVal.str "Unknown") rfl] at hnone
  · exact Or.inr rfl
  · simp [isNoneVal_resolveField (dictFind? kvs "consented_items")
      (PyVal.list []) rfl] at hnone
  · simp [isNoneVal_resolveField (dictFind? kvs "declined_items")
      (PyVal.list []) rfl] at hnone
  · simp [isNoneVal_resolveField (dictFind? kvs "summary")
      (PyVal.str "Unable to extract summary from consent form.") rfl] at hnone

/-- Claim C4 witness: `validate_analysis_spec` applied to the concrete
parsed object holding only `patient_name`. -/
theorem validate_analysis_spec_witness :
    ∃ kvs', _validate_analysis (.dict [("patient_name", .str "Jo")])
        = .ok (.dict kvs') ∧
      dictFind? kvs' "patient_name"
        = some (resolveField (dictFind? [("patient_name", .str "Jo")]
            "patient_name") (.str "Unknown")) := by
  obtain ⟨kvs', heq, hmem, _, _⟩ :=
    validate_analysis_spec [("patient_name", .str "Jo")]
  exact ⟨kvs', heq,
    hmem ("patient_name", .str "Unknown") (by simp [default_analysis_fields])⟩

/-! ## Claim C3: analyzer failure policy

The key nontrivial fact is that when the (stripped) response has no
brace-delimited span — `jsonMatch?` is `none` — `json.loads` on the whole
response can never produce a dict, so validation raises `TypeError` and
the `except` handler returns the default record.  The lemmas below track
that a successful object parse consumes a `{` ... `}` pair. -/

/-- Dropping the head preserves being a suffix. -/
theorem suffix_trans_cons {α} {t l : List α} (a : α) (h : a :: t <:+ l) :
    t <:+ l :=
  (List.suffix_cons a t).trans h

/-- The remainder returned by `decodeEscape` is a suffix of its input. -/
theorem decodeEscape_suffix :
    ∀ {cs : List Char} {ch : Char} {r : List Char},
      decodeEscape cs = some (ch, r) → r <:+ cs := by
  intro cs ch r h
  cases cs with
  | nil => simp [decodeEscape] at h
  | cons e rest =>
      simp only [decodeEscape] at h
      repeat' split at h
      all_goals
        first
          | (exfalso; simp at h; done)
          | (simp only [Option.some.injEq, Prod.mk.injEq] at h
             obtain ⟨h1, h2⟩ := h
             subst h2
             first
               | exact List.suffix_cons _ _
               | exact suffix_trans_cons _ (suffix_trans_cons _
                   (suffix_trans_cons _ (suffix_trans_cons _
                     (List.suffix_cons _ _)))))

/-- The remainder returned by `parseStrBody` is a suffix of its input. -/
theorem parseStrBody_suffix :
    ∀ (fuel : Nat) {cs : List Char} {s : String} {r : List Char},
      parseStrBody fuel cs = some (s, r) → r <:+ cs := by
  intro fuel
  induction fuel with
  | zero => intro cs s r h; simp [parseStrBody] at h
  | succ fuel ih =>
      intro cs s r h
      cases cs with
      | nil => simp [parseStrBody] at h
      | cons c rest =>
          simp only [parseStrBody] at h
          split at h
          · simp only [Option.some.injEq, Prod.mk.injEq] at h
            obtain ⟨h1, h2⟩ := h
            subst h2
            exact List.suffix_cons _ _
          · split at h
            · split at h
              · rename_i ch rest' hdec
                split at h
                · rename_i s' r' hp
                  simp only [Option.some.injEq, Prod.mk.injEq] at h
                  obtain ⟨h1, h2⟩ := h
                  subst h2
                  exact ((ih hp).trans (decodeEscape_suffix hdec)).trans
                    (List.suffix_cons _ _)
                · simp at h
              · simp at h
            · split at h
              · simp at h
              · split at h
                · rename_i s' r' hp
                  simp only [Option.some.injEq, Prod.mk.injEq] at h
                  obtain ⟨h1, h2⟩ := h
                  subst h2
                  exact (ih hp).trans (List.suffix_cons _ _)
                · simp at h

/-- The remainder returned by `parseFracPart` is a suffix of its input. -/
theorem parseFracPart_suffix :
    ∀ {cs fp r : List Char}, parseFracPart cs = some (fp, r) → r <:+ cs := by
  intro cs fp r h
  unfold parseFracPart at h
  split at h
  · split at h
    · simp at h
    · simp only [Option.some.injEq, Prod.mk.injEq] at h
      obtain ⟨h1, h2⟩ := h
      subst h2
      exact (List.dropWhile_suffix _).trans (List.suffix_cons _ _)
  · simp only [Option.some.injEq, Prod.mk.injEq] at h
    obtain ⟨h1, h2⟩ := h
    subst h2
    exact List.suffix_refl _

/-- The remainder returned by `parseExpPart` is a suffix of its input. -/
theorem parseExpPart_suffix :
    ∀ {cs ep r : List Char}, parseExpPart cs = some (ep, r) → r <:+ cs := by
  intro cs ep r h
  cases cs with
  | nil =>
      simp only [parseExpPart, Option.some.injEq, Prod.mk.injEq] at h
      obtain ⟨h1, h2⟩ := h
      subst h2
      exact List.suffix_refl _
  | cons c rest =>
      simp only [parseExpPart] at h
      split at h
      · split at h
        · split at h
          · split at h
            · simp at h
            · simp only [Option.some.injEq, Prod.mk.injEq] at h
              obtain ⟨h1, h2⟩ := h
              subst h2
              exact ((List.dropWhile_suffix _).trans
                (List.suffix_cons _ _)).trans (List.suffix_cons _ _)
          · split at h
            · simp at h
            · simp only [Option.some.injEq, Prod.mk.injEq] at h
              obtain ⟨h1, h2⟩ := h
              subst h2
              exact (List.dropWhile_suffix _).trans (List.suffix_cons _ _)
        · simp at h
      · simp only [Option.some.injEq, Prod.mk.injEq] at h
        obtain ⟨h1, h2⟩ := h
        subst h2
        exact List.suffix_refl _

/-- Core suffix fact for `parseNumberCore`. -/
theorem parseNumberCore_suffix :
    ∀ {neg : Bool} {cs1 : List Char} {v : PyVal} {r : List Char},
      parseNumberCore neg cs1 = some (v, r) → r <:+ cs1 := by
  intro neg cs1 v r h
  unfold parseNumberCore at h
  split at h
  · simp at h
  · split at h
    · simp at h
    · split at h
      · simp at h
      · rename_i fp r2 hfp
        split at h
        · simp at h
        · rename_i ep r3 hep
          have hsub : r3 <:+ cs1 :=
            (parseExpPart_suffix hep).trans
              ((parseFracPart_suffix hfp).trans (List.dropWhile_suffix _))
          split at h <;>
            (simp only [Option.some.injEq, Prod.mk.injEq] at h
             obtain ⟨h1, h2⟩ := h
             subst h2
             exact hsub)

/-- The remainder returned by `parseNumber` is a suffix of its input. -/
theorem parseNumber_suffix :
    ∀ {cs : List Char} {v : PyVal} {r : List Char},
      parseNumber cs = some (v, r) → r <:+ cs := by
  intro cs v r h
  unfold parseNumber at h
  split at h
  · exact (parseNumberCore_suffix h).trans (List.suffix_cons _ _)
  · exact parseNumberCore_suffix h

/-- The remainder returned by `expectLit` is a suffix of its input. -/
theorem expectLit_suffix {lit cs r : List Char}
    (h : expectLit lit cs = some r) : r <:+ cs := by
  unfold expectLit at h
  split at h
  · injection h with h
    subst h
    exact List.drop_suffix _ _
  · simp at h

/-- The remainders returned by the five mutually recursive parser
functions are suffixes of their inputs. -/
theorem parser_suffix :
    ∀ fuel : Nat,
      (∀ cs v r, parseVal fuel cs = some (v, r) → r <:+ cs) ∧
      (∀ cs v r, parseObj fuel cs = some (v, r) → r <:+ cs) ∧
      (∀ cs acc v r, parseMembers fuel cs acc = some (v, r) → r <:+ cs) ∧
      (∀ cs v r, parseArr fuel cs = some (v, r) → r <:+ cs) ∧
      (∀ cs acc v r, parseItems fuel cs acc = some (v, r) → r <:+ cs) := by
  intro fuel
  induction fuel with
  | zero =>
      refine ⟨?_, ?_, ?_, ?_, ?_⟩ <;> intros cs
        <;> simp [parseVal, parseObj, parseMembers, parseArr, parseItems]
  | succ fuel ih =>
      obtain ⟨ihV, ihO, ihM, ihA, ihI⟩ := ih
      refine ⟨?_, ?_, ?_, ?_, ?_⟩
      · -- parseVal
        intro cs v r h
        simp only [parseVal] at h
        split at h
        · simp at h
        · rename_i c rest hsw
          have hcr : c :: rest <:+ cs := hsw ▸ List.dropWhile_suffix isJsonWs
          have hrest : rest <:+ cs := suffix_trans_cons c hcr
          split at h
          · exact (ihO _ _ _ h).trans hrest
          · split at h
            · exact (ihA _ _ _ h).trans hrest
            · split at h
              · split at h
                · rename_i s' r' hp
                  simp only [Option.some.injEq, Prod.mk.injEq] at h
                  obtain ⟨h1, h2⟩ := h
                  subst h2
                  exact (parseStrBody_suffix _ hp).trans hrest
                · simp at h
              · split at h
                · obtain ⟨r1, hp, h⟩ := Option.map_eq_some'.mp h
                  simp only [Prod.mk.injEq] at h
                  obtain ⟨h1, h2⟩ := h
                  subst h2
                  exact (expectLit_suffix hp).trans hrest
                · split at h
                  · obtain ⟨r1, hp, h⟩ := Option.map_eq_some'.mp h
                    simp only [Prod.mk.injEq] at h
                    obtain ⟨h1, h2⟩ := h
                    subst h2
                    exact (expectLit_suffix hp).trans hrest
                  · split at h
                    · obtain ⟨r1, hp, h⟩ := Option.map_eq_some'.mp h
                      simp only [Prod.mk.injEq] at h
                      obtain ⟨h1, h2⟩ := h
                      subst h2
                      exact (expectLit_suffix hp).trans hrest
                    · exact (parseNumber_suffix h).trans hcr
      · -- parseObj
        intro cs v r h
        simp only [parseObj] at h
        split at h
        · simp at h
        · rename_i c rest hsw
          have hcr : c :: rest <:+ cs := hsw ▸ List.dropWhile_suffix isJsonWs
          split at h
          · simp only [Option.some.injEq, Prod.mk.injEq] at h
            obtain ⟨h1, h2⟩ := h
            subst h2
            exact suffix_trans_cons c hcr
          · exact ihM _ _ _ _ h
      · -- parseMembers
        intro cs acc v r h
        simp only [parseMembers] at h
        split at h
        · simp at h
        · rename_i c rest hsw
          have hcr : c :: rest <:+ cs := hsw ▸ List.dropWhile_suffix isJsonWs
          have hrest : rest <:+ cs := suffix_trans_cons c hcr
          split at h
          · split at h
            · rename_i k r1 hk
              have hr1 : r1 <:+ cs := (parseStrBody_suffix _ hk).trans hrest
              split at h
              · rename_i r2 hcolon
                have hr2 : r2 <:+ cs :=
                  (suffix_trans_cons ':'
                    (hcolon ▸ List.dropWhile_suffix isJsonWs)).trans hr1
                split at h
                · rename_i v' r3 hv
                  have hr3 : r3 <:+ cs := (ihV _ _ _ hv).trans hr2
                  split at h
                  · rename_i d r4 hd
                    have hr4 : r4 <:+ cs :=
                      (suffix_trans_cons d
                        (hd ▸ List.dropWhile_suffix isJsonWs)).trans hr3
                    split at h
                    · exact (ihM _ _ _ _ h).trans hr4
                    · split at h
                      · simp only [Option.some.injEq, Prod.mk.injEq] at h
                        obtain ⟨h1, h2⟩ := h
                        subst h2
                        exact hr4
                      · simp at h
                  · simp at h
                · simp at h
              · simp at h
            · simp at h
          · simp at h
      · -- parseArr
        intro cs v r h
        simp only [parseArr] at h
        split at h
        · simp at h
        · rename_i c rest hsw
          have hcr : c :: rest <:+ cs := hsw ▸ List.dropWhile_suffix isJsonWs
          split at h
          · simp only [Option.some.injEq, Prod.mk.injEq] at h
            obtain ⟨h1, h2⟩ := h
            subst h2
            exact suffix_trans_cons c hcr
          · exact ihI _ _ _ _ h
      · -- parseItems
        intro cs acc v r h
        simp only [parseItems] at h
        split at h
        · rename_i v' r1 hv
          have hr1 : r1 <:+ cs := ihV _ _ _ hv
          split at h
          · rename_i d r2 hd
            have hr2 : r2 <:+ cs :=
              (suffix_trans_cons d (hd ▸ List.dropWhile_suffix isJsonWs)).trans hr1
            split at h
            · exact (ihI _ _ _ _ h).trans hr2
            · split at h
              · simp only [Option.some.injEq, Prod.mk.injEq] at h
                obtain ⟨h1, h2⟩ := h
                subst h2
                exact hr2
              · simp at h
          · simp at h
        · simp at h

/-- A successful object-member parse or object parse consumes a closing
brace: `}` occurs in the input. -/
theorem parser_rbrace :
    ∀ fuel : Nat,
      (∀ cs acc v r, parseMembers fuel cs acc = some (v, r) → rbrace ∈ cs) ∧
      (∀ cs v r, parseObj fuel cs = some (v, r) → rbrace ∈ cs) := by
  intro fuel
  induction fuel with
  | zero =>
      constructor <;> intro cs <;> simp [parseMembers, parseObj]
  | succ fuel ih =>
      obtain ⟨ihM, ihO⟩ := ih
      constructor
      · -- parseMembers
        intro cs acc v r h
        simp only [parseMembers] at h
        split at h
        · simp at h
        · rename_i c rest hsw
          have hcr : c :: rest <:+ cs := hsw ▸ List.dropWhile_suffix isJsonWs
          have hrest : rest <:+ cs := suffix_trans_cons c hcr
          split at h
          · split at h
            · rename_i k r1 hk
              have hr1 : r1 <:+ cs := (parseStrBody_suffix _ hk).trans hrest
              split at h
              · rename_i r2 hcolon
                have hr2 : r2 <:+ cs :=
                  (suffix_trans_cons ':'
                    (hcolon ▸ List.dropWhile_suffix isJsonWs)).trans hr1
                split at h
                · rename_i v' r3 hv
                  have hr3 : r3 <:+ cs :=
                    ((parser_suffix fuel).1 _ _ _ hv).trans hr2
                  split at h
                  · rename_i d r4 hd
                    have hskip3 : skipWs r3 <:+ r3 :=
                      List.dropWhile_suffix isJsonWs
                    have hdr4 : d :: r4 <:+ cs := (hd ▸ hskip3).trans hr3
                    split at h
                    · exact (suffix_trans_cons d hdr4).subset
                        (ihM _ _ _ _ h)
                    · split at h
                      · rename_i hcomma hrb
                        exact hdr4.subset (hrb ▸ List.mem_cons_self d r4)
                      · simp at h
                  · simp at h
                · simp at h
              · simp at h
            · simp at h
          · simp at h
      · -- parseObj
        intro cs v r h
        simp only [parseObj] at h
        split at h
        · simp at h
        · rename_i c rest hsw
          have hcr : c :: rest <:+ cs := hsw ▸ List.dropWhile_suffix isJsonWs
          split at h
          · rename_i hrb
            exact hcr.subset (hrb ▸ List.mem_cons_self c rest)
          · exact ihM _ _ _ _ h

/-- `parseNumberCore` only produces numbers. -/
theorem parseNumberCore_shape {neg : Bool} {cs1 : List Char} {v : PyVal}
    {r : List Char} (h : parseNumberCore neg cs1 = some (v, r)) :
    (∃ n, v = .int n) ∨ (∃ l, v = .float l) := by
  unfold parseNumberCore at h
  split at h
  · simp at h
  · split at h
    · simp at h
    · split at h
      · simp at h
      · split at h
        · simp at h
        · split at h <;>
            (simp only [Option.some.injEq, Prod.mk.injEq] at h
             obtain ⟨h1, h2⟩ := h
             subst h1)
          · exact Or.inl ⟨_, rfl⟩
          · exact Or.inr ⟨_, rfl⟩

/-- `parseNumber` only produces numbers. -/
theorem parseNumber_shape {cs : List Char} {v : PyVal} {r : List Char}
    (h : parseNumber cs = some (v, r)) :
    (∃ n, v = .int n) ∨ (∃ l, v = .float l) := by
  unfold parseNumber at h
  split at h <;> exact parseNumberCore_shape h

/-- `parseArr` and `parseItems` only produce lists. -/
theorem parser_list_shape :
    ∀ fuel : Nat,
      (∀ cs acc v r, parseItems fuel cs acc = some (v, r) → ∃ xs, v = .list xs) ∧
      (∀ cs v r, parseArr fuel cs = some (v, r) → ∃ xs, v = .list xs) := by
  intro fuel
  induction fuel with
  | zero => constructor <;> intro cs <;> simp [parseItems, parseArr]
  | succ fuel ih =>
      obtain ⟨ihI, ihA⟩ := ih
      constructor
      · intro cs acc v r h
        simp only [parseItems] at h
        split at h
        · rename_i v' r1 hv
          split at h
          · rename_i d r2 hd
            split at h
            · exact ihI _ _ _ _ h
            · split at h
              · simp only [Option.some.injEq, Prod.mk.injEq] at h
                obtain ⟨h1, h2⟩ := h
                subst h1
                exact ⟨_, rfl⟩
              · simp at h
          · simp at h
        · simp at h
      · intro cs v r h
        simp only [parseArr] at h
        split at h
        · simp at h
        · split at h
          · simp only [Option.some.injEq, Prod.mk.injEq] at h
            obtain ⟨h1, h2⟩ := h
            subst h1
            exact ⟨_, rfl⟩
          · exact ihI _ _ _ _ h

/-- A successful top-level dict parse exhibits a `{` followed (later) by
a `}` in the input. -/
theorem parseVal_dict_pair :
    ∀ (fuel : Nat) {cs : List Char} {kvs : List (String × PyVal)}
      {r : List Char},
      parseVal fuel cs = some (.dict kvs, r) →
      ∃ l₁ l₂ l₃, cs = l₁ ++ lbrace :: (l₂ ++ rbrace :: l₃) := by
  intro fuel cs kvs r h
  cases fuel with
  | zero => simp [parseVal] at h
  | succ fuel =>
      simp only [parseVal] at h
      split at h
      · simp at h
      · rename_i c rest hsw
        have hcs : cs = cs.takeWhile isJsonWs ++ (c :: rest) := by
          rw [← hsw]
          exact (List.takeWhile_append_dropWhile isJsonWs cs).symm
        split at h
        · rename_i hc
          have hrb : rbrace ∈ rest := (parser_rbrace fuel).2 _ _ _ h
          obtain ⟨l₂, l₃, hrest⟩ := List.append_of_mem hrb
          rw [hc, hrest] at hcs
          exact ⟨cs.takeWhile isJsonWs, l₂, l₃, hcs⟩
        · split at h
          · obtain ⟨xs, hx⟩ := (parser_list_shape fuel).2 _ _ _ h
            cases hx
          · split at h
            · split at h
              · simp only [Option.some.injEq, Prod.mk.injEq] at h
                obtain ⟨h1, h2⟩ := h
                simp at h1
              · simp at h
            · split at h
              · obtain ⟨r1, hp, h⟩ := Option.map_eq_some'.mp h
                simp at h
              · split at h
                · obtain ⟨r1, hp, h⟩ := Option.map_eq_some'.mp h
                  simp at h
                · split at h
                  · obtain ⟨r1, hp, h⟩ := Option.map_eq_some'.mp h
                    simp at h
                  · rcases parseNumber_shape h with ⟨n, hn⟩ | ⟨l, hl⟩
                    · simp at hn
                    · simp at hl

/-- `truncAtLastRbrace?` succeeds exactly when the input contains `}`. -/
theorem truncAtLastRbrace?_isSome {cs : List Char} (h : rbrace ∈ cs) :
    (truncAtLastRbrace? cs).isSome := by
  induction cs with
  | nil => simp at h
  | cons c rest ih =>
      unfold truncAtLastRbrace?
      rcases List.mem_cons.mp h with rfl | hm
      · cases htr : truncAtLastRbrace? rest <;> simp [htr]
      · have hsome := ih hm
        cases htr : truncAtLastRbrace? rest
        · rw [htr] at hsome
          simp at hsome
        · simp [htr]

/-- The greedy regex match succeeds on any input containing a `{` with a
`}` somewhere after it. -/
theorem jsonMatchL_isSome_of_pair :
    ∀ (l₁ l₂ l₃ : List Char),
      (jsonMatchL (l₁ ++ lbrace :: (l₂ ++ rbrace :: l₃))).isSome := by
  intro l₁
  induction l₁ with
  | nil =>
      intro l₂ l₃
      have hmem : rbrace ∈ l₂ ++ rbrace :: l₃ :=
        List.mem_append_right l₂ (List.mem_cons_self rbrace l₃)
      have := truncAtLastRbrace?_isSome hmem
      cases htr : truncAtLastRbrace? (l₂ ++ rbrace :: l₃)
      · rw [htr] at this
        simp at this
      · simp [jsonMatchL, htr]
  | cons c l₁' ih =>
      intro l₂ l₃
      by_cases hc : c = lbrace
      · subst hc
        have hmem : rbrace ∈ l₁' ++ lbrace :: (l₂ ++ rbrace :: l₃) := by
          refine List.mem_append_right _ ?_
          exact List.mem_cons_of_mem _
            (List.mem_append_right l₂ (List.mem_cons_self rbrace l₃))
        have := truncAtLastRbrace?_isSome hmem
        cases htr : truncAtLastRbrace? (l₁' ++ lbrace :: (l₂ ++ rbrace :: l₃))
        · rw [htr] at this
          simp at this
        · simp [jsonMatchL, htr]
      · simpa [jsonMatchL, hc] using ih l₂ l₃

/-- When `json.loads` produces a dict, the input necessarily contains a
brace-delimited span, so the regex match succeeds on it. -/
theorem jsonLoads_dict_braces {s : String} {kvs : List (String × PyVal)}
    (h : jsonLoads s = .ok (.dict kvs)) :
    (jsonMatchL s.toList).isSome := by
  unfold jsonLoads at h
  split at h
  · rename_i v rest hp
    split at h
    · injection h with h
      subst h
      obtain ⟨l₁, l₂, l₃, hdecomp⟩ := parseVal_dict_pair _ hp
      rw [hdecomp]
      exact jsonMatchL_isSome_of_pair l₁ l₂ l₃
    · simp at h
  · simp at h

/-- `validate_field` raises `TypeError` on every non-dict value: the
membership test raises on scalars, and the subscription (or subscript
assignment) raises on strings and lists. -/
theorem validate_field_nondict (v : PyVal) (k : String) (d : PyVal)
    (hnd : ∀ kvs, v ≠ PyVal.dict kvs) :
    validate_field v k d = .error .typeError := by
  cases v with
  | dict kvs => exact absurd rfl (hnd kvs)
  | none => rfl
  | bool b => rfl
  | int n => rfl
  | float l => rfl
  | str s =>
      unfold validate_field
      cases hb : listContainsSub s.toList k.toList <;>
        simp [pyContains, pyGetItem, pySetItem, hb, Bind.bind, Except.bind]
  | list xs =>
      unfold validate_field
      cases hb : xs.contains (PyVal.str k) <;>
        simp [pyContains, pyGetItem, pySetItem, hb, Bind.bind, Except.bind]

/-- `_validate_analysis` raises `TypeError` on every non-dict value (it
fails at the very first required field). -/
theorem validate_analysis_nondict (v : PyVal)
    (hnd : ∀ kvs, v ≠ PyVal.dict kvs) :
    _validate_analysis v = .error .typeError := by
  unfold _validate_analysis default_analysis_fields
  rw [List.foldlM_cons]
  rw [show validate_field v "patient_name" (.str "Unknown") = .error .typeError
    from validate_field_nondict v _ _ hnd]
  rfl

/-- Claim C3: `analyze_consent_form` never raises — it always returns a
record — and it returns the all-defaults record whenever the capability
call fails, whenever the stripped response contains no brace-delimited
span (no JSON object to extract), and whenever JSON parsing of the
extraction target fails. -/
theorem analyze_failure_policy :
    (∀ cap : Except String String, ∃ rec, analyze_consent_form cap = .ok rec) ∧
    (∀ e, analyze_consent_form (.error e) = .ok _get_default_analysis) ∧
    (∀ resp, jsonMatch? (pyStrip resp) = Option.none →
        analyze_consent_form (.ok resp) = .ok _get_default_analysis) ∧
    (∀ resp e, jsonLoads (analyze_target resp) = .error e →
        analyze_consent_form (.ok resp) = .ok _get_default_analysis) := by
  refine ⟨?_, fun e => rfl, ?_, ?_⟩
  · intro cap
    cases cap with
    | error e => exact ⟨_, rfl⟩
    | ok resp =>
        cases hj : jsonLoads (analyze_target resp) with
        | error e =>
            exact ⟨_get_default_analysis, by simp [analyze_consent_form, hj]⟩
        | ok parsed =>
            cases hv : _validate_analysis parsed with
            | ok a => exact ⟨a, by simp [analyze_consent_form, hj, hv]⟩
            | error e =>
                exact ⟨_get_default_analysis,
                  by simp [analyze_consent_form, hj, hv]⟩
  · intro resp hnm
    have htarget : analyze_target resp = pyStrip resp := by
      simp [analyze_target, hnm]
    cases hj : jsonLoads (pyStrip resp) with
    | error e => simp [analyze_consent_form, htarget, hj]
    | ok v =>
        cases v with
        | dict kvs =>
            exfalso
            have hsome := jsonLoads_dict_braces hj
            have hnone : jsonMatchL (pyStrip resp).toList = Option.none := by
              unfold jsonMatch? at hnm
              exact Option.map_eq_none'.mp hnm
            rw [hnone] at hsome
            simp at hsome
        | none =>
            simp [analyze_consent_form, htarget, hj,
              validate_analysis_nondict PyVal.none (fun kvs => by simp)]
        | bool b =>
            simp [analyze_consent_form, htarget, hj,
              validate_analysis_nondict (PyVal.bool b) (fun kvs => by simp)]
        | int n =>
            simp [analyze_consent_form, htarget, hj,
              validate_analysis_nondict (PyVal.int n) (fun kvs => by simp)]
        | float l =>
            simp [analyze_consent_form, htarget, hj,
              validate_analysis_nondict (PyVal.float l) (fun kvs => by simp)]
        | str s =>
            simp [analyze_consent_form, htarget, hj,
              validate_analysis_nondict (PyVal.str s) (fun kvs => by simp)]
        | list xs =>
            simp [analyze_consent_form, htarget, hj,
              validate_analysis_nondict (PyVal.list xs) (fun kvs => by simp)]
  · intro resp e hj
    simp [analyze_consent_form, hj]

/-- Claim C3 witness: `analyze_failure_policy` applied to a concrete
braceless response and to a concrete response whose extracted span fails
to parse. -/
theorem analyze_failure_policy_witness :
    analyze_consent_form (.ok "the model replied with prose only")
        = .ok _get_default_analysis ∧
    analyze_consent_form (.ok "\x7b not json \x7d")
        = .ok _get_default_analysis :=
  ⟨analyze_failure_policy.2.2.1 "the model replied with prose only" rfl,
   analyze_failure_policy.2.2.2 "\x7b not json \x7d" .jsonDecodeError rfl⟩
